import Mathlib

/-!
# Verification of the SlabHash warp-cooperative GPU hash table

Shallow embedding of the slab hash data structure and its Insert / Search /
Remove protocols (`slab_hash.h` implementation file, `slab_hash_device.cuh`,
`concurrent/slab_hash.cuh`).

Modelling conventions:
* 32-bit machine words are `Nat` with the all-ones sentinels written out
  (`EMPTY_PAIR_PTR = EMPTY_SLAB_PTR = 0xFFFFFFFF`); arithmetic that can wrap
  takes an explicit `% 2^32`.
* A `Slab` is the source's `ptr_t pair_ptrs[31]; ptr_t next_slab_ptr;`.
* The pair allocator (`memory_alloc.h`, not part of the sources at hand) is
  modelled from the spec as an index-addressed pool with free-list semantics;
  the slab allocator (`slab_alloc.h`, also absent) is modelled from the spec
  as an indexed pool that grows on `WarpAllocate` and whose head sentinel is
  `HEAD_SLAB_PTR`.
* The warp loops execute all 32 lanes in lockstep and service the lowest
  active lane; the sequential functions below are the exact single-serviced-
  lane semantics of those loops (one recursive call per `while` iteration,
  driven by a fuel argument standing for the iteration count).  A CAS whose
  interleaving matters (Remove's delete CAS, Insert's slab-link CAS) is
  additionally modelled branch-locally with the concurrently observed word as
  an explicit parameter.
-/

/-- 32 lanes per warp (`WARP_WIDTH`). -/
def WARP_WIDTH : Nat := 32

/-- All-ones 32-bit sentinel for an unoccupied pair slot (`EMPTY_PAIR_PTR`). -/
def EMPTY_PAIR_PTR : Nat := 4294967295

/-- All-ones 32-bit sentinel for slot 31 when no next slab exists (`EMPTY_SLAB_PTR`). -/
def EMPTY_SLAB_PTR : Nat := 4294967295

/-- Reserved slab index meaning "read the bucket's head slab" (`HEAD_SLAB_PTR`).
Modelled from the spec: the constant lives in the absent `slab_alloc.h`; the
spec reserves it as an index value distinct from every heap slab index and
from the empty sentinel. -/
def HEAD_SLAB_PTR : Nat := 4294967294

/-- Iterator value returned when nothing was found (`NULL_ITERATOR`). -/
def NULL_ITERATOR : Nat := 4294967295

/-- Lane 31 holds the next-slab pointer (`NEXT_SLAB_PTR_LANE`). -/
def NEXT_SLAB_PTR_LANE : Nat := 31

/-- One slab: 31 pair-pointer words and the next-slab pointer word
(class `Slab` of the implementation file). -/
structure Slab where
  pair_ptrs : List Nat
  next_slab_ptr : Nat
deriving Repr, DecidableEq

/-- Reading pair word `i` of a slab (lane `i`'s read of the slab). -/
def Slab.slot (sl : Slab) (i : Nat) : Nat := sl.pair_ptrs.getD i EMPTY_PAIR_PTR

/-- A slab in its initial all-ones state (the `0xFF` memset pattern). -/
def emptySlab : Slab := ⟨List.replicate 31 EMPTY_PAIR_PTR, EMPTY_SLAB_PTR⟩

/-- The pair allocator (`MemoryAllocContext`).  Modelled from the spec:
`memory_alloc.h` is not among the sources; per the spec it is an
index-addressed pool of (key, value) records with free-list semantics,
thread-local `Allocate`/`Free` and constant-time `extract`. -/
structure MemoryAllocContext where
  data : List (Nat × Nat)
  free : List Nat
deriving Repr, DecidableEq

/-- `extract(addr)`: constant-time access to the record behind a pair index. -/
def MemoryAllocContext.extract (c : MemoryAllocContext) (i : Nat) : Nat × Nat :=
  c.data.getD i (0, 0)

/-- `Allocate()`: pop a free index.  Modelled from the spec: fails
(`OutOfPairs`) when the pool is exhausted. -/
def MemoryAllocContext.Allocate (c : MemoryAllocContext) :
    Option (Nat × MemoryAllocContext) :=
  match c.free with
  | [] => none
  | i :: rest => some (i, { c with free := rest })

/-- `Free(addr)`: return an index to the pool. -/
def MemoryAllocContext.Free (c : MemoryAllocContext) (i : Nat) : MemoryAllocContext :=
  { c with free := i :: c.free }

/-- Writing the record behind a pair index
(`pair_allocator_ctx_.extract(ptr) = make_pair(key, value)`). -/
def MemoryAllocContext.write (c : MemoryAllocContext) (i : Nat) (kv : Nat × Nat) :
    MemoryAllocContext :=
  { c with data := c.data.set i kv }

/-- The device-side hash table context (`SlabHashContext`): the bucket head
array, the heap of chained slabs (the slab allocator's pool, modelled from
the spec as an indexed pool that grows at the end on allocation) and the pair
allocator.  The hash functor (template parameter `_Hash`) is passed to the
operations explicitly. -/
structure SlabHashContext where
  num_buckets : Nat
  heads : List Slab
  slabs : List Slab
  pairs : MemoryAllocContext
deriving Repr, DecidableEq

/-- Reading a whole slab: the bucket's head slab when `ptr = HEAD_SLAB_PTR`
(`get_unit_ptr_from_list_head`), a heap slab otherwise
(`get_unit_ptr_from_list_nodes`). -/
def SlabHashContext.getSlab (s : SlabHashContext) (bucket ptr : Nat) : Slab :=
  if ptr = HEAD_SLAB_PTR then s.heads.getD bucket emptySlab
  else s.slabs.getD ptr emptySlab

/-- Writing back a whole slab at the position `getSlab` reads. -/
def SlabHashContext.setSlab (s : SlabHashContext) (bucket ptr : Nat) (sl : Slab) :
    SlabHashContext :=
  if ptr = HEAD_SLAB_PTR then { s with heads := s.heads.set bucket sl }
  else { s with slabs := s.slabs.set ptr sl }

/-- `ComputeBucket`: `hash_fn_(key) % num_buckets_`. -/
def SlabHashContext.ComputeBucket (s : SlabHashContext) (hash : Nat → Nat) (key : Nat) : Nat :=
  hash key % s.num_buckets

/-- `computeBucket` of the `ConcurrentMap` variant
(`((hash_x_ ^ key) + hash_y_) % PRIME_DIVISOR_ % num_buckets_`, all in
unsigned 32-bit arithmetic). -/
def computeBucketConcurrent (x y nb key : Nat) : Nat :=
  (((x ^^^ key) + y) % 4294967296 % 4294967291) % nb

/-- The hash of the `ConcurrentMap` variant on its own. -/
def concurrentHash (x y key : Nat) : Nat :=
  ((x ^^^ key) + y) % 4294967296 % 4294967291

/-- `__ballot_sync` over lanes `0 .. n-1`: bit `i` of the result is lane `i`'s
predicate. -/
def ballot (p : Nat → Bool) : Nat → Nat
  | 0 => 0
  | n + 1 => (if p 0 then 1 else 0) + 2 * ballot (fun i => p (i + 1)) n

/-- `__ffs`: position of the least significant set bit, 1-based; 0 on zero. -/
def ffs (n : Nat) : Nat :=
  if h : n = 0 then 0
  else if n % 2 = 1 then 1 else ffs (n / 2) + 1
termination_by n
decreasing_by exact Nat.div_lt_self (Nat.pos_of_ne_zero h) (by decide)

/-- Index of the first lane in `0 .. n-1` satisfying `p`; the value of
`__ffs(__ballot_sync(mask, p)) - 1` in `Option` form. -/
def firstLane (p : Nat → Bool) : Nat → Option Nat
  | 0 => none
  | n + 1 => if p 0 then some 0 else (firstLane (fun i => p (i + 1)) n).map (· + 1)

/-- `WarpFindKey`: the lowest lane in `0..30` whose slab word is a non-empty
pair index referring to a record with the queried key
(`__ffs(__ballot_sync(PAIR_PTR_LANES_MASK, is_lane_found)) - 1`). -/
def WarpFindKey (pairs : MemoryAllocContext) (key : Nat) (sl : Slab) : Option Nat :=
  firstLane
    (fun i => decide (sl.slot i ≠ EMPTY_PAIR_PTR) &&
              decide ((pairs.extract (sl.slot i)).1 = key)) 31

/-- `WarpFindEmpty`: the lowest lane in `0..30` whose slab word is
`EMPTY_PAIR_PTR`. -/
def WarpFindEmpty (sl : Slab) : Option Nat :=
  firstLane (fun i => decide (sl.slot i = EMPTY_PAIR_PTR)) 31

/-- The body of `SlabHashContext::Search`'s work-queue loop for the serviced
lane, one recursive call per iteration (fuel = iteration budget).  Branches in
source order: key found in this slab → succeed with the found pair index;
otherwise follow lane 31's word, aborting with `(NULL_ITERATOR, false)` on
`EMPTY_SLAB_PTR`. -/
def searchLoop (s : SlabHashContext) (key bucket : Nat) : Nat → Nat → Option (Nat × Bool)
  | 0, _ => none
  | fuel + 1, curr_slab_ptr =>
    let sl := s.getSlab bucket curr_slab_ptr
    match WarpFindKey s.pairs key sl with
    | some lane_found => some (sl.slot lane_found, true)
    | none =>
      if sl.next_slab_ptr = EMPTY_SLAB_PTR then some (NULL_ITERATOR, false)
      else searchLoop s key bucket fuel sl.next_slab_ptr

/-- `SlabHashContext::Search` for one serviced lane. -/
def SlabHashContext.Search (s : SlabHashContext) (hash : Nat → Nat) (key fuel : Nat) :
    Option (Nat × Bool) :=
  searchLoop s key (s.ComputeBucket hash key) fuel HEAD_SLAB_PTR

/-- The body of `SlabHashContext::Insert`'s loop for the serviced lane.
Branches in source order: (1) duplicate key → free the pre-allocated pair and
abort with `(NULL_ITERATOR, false)`; (2) empty slot → CAS the pre-allocated
pair index into the lowest empty slot (the CAS succeeds in the
single-serviced-lane semantics, where the word just read empty is unchanged);
(3) otherwise follow or, when empty, allocate-and-link the next slab (the
link CAS likewise succeeds here; the interleaved-loser path is modelled by
`insertBranch32`). -/
def insertLoop (s : SlabHashContext) (key value bucket prealloc : Nat) :
    Nat → Nat → Option (SlabHashContext × Nat × Bool)
  | 0, _ => none
  | fuel + 1, curr_slab_ptr =>
    let sl := s.getSlab bucket curr_slab_ptr
    match WarpFindKey s.pairs key sl with
    | some _ =>
      some ({ s with pairs := s.pairs.Free prealloc }, NULL_ITERATOR, false)
    | none =>
      match WarpFindEmpty sl with
      | some lane_empty =>
        some (s.setSlab bucket curr_slab_ptr
                { sl with pair_ptrs := sl.pair_ptrs.set lane_empty prealloc },
              prealloc, true)
      | none =>
        if sl.next_slab_ptr ≠ EMPTY_SLAB_PTR then
          insertLoop s key value bucket prealloc fuel sl.next_slab_ptr
        else
          let new_slab_ptr := s.slabs.length
          let s1 := { s with slabs := s.slabs ++ [emptySlab] }
          let s2 := s1.setSlab bucket curr_slab_ptr { sl with next_slab_ptr := new_slab_ptr }
          insertLoop s2 key value bucket prealloc fuel curr_slab_ptr

/-- `SlabHashContext::Insert` for one serviced lane: the pair record is
allocated and filled with (key, value) before the loop; on pool exhaustion
the lane produces the not-inserted outcome (modelled from the spec, the
allocator source being absent). -/
def SlabHashContext.Insert (s : SlabHashContext) (hash : Nat → Nat) (key value fuel : Nat) :
    Option (SlabHashContext × Nat × Bool) :=
  match s.pairs.Allocate with
  | none => some (s, NULL_ITERATOR, false)
  | some (prealloc, pairs1) =>
    let pairs2 := pairs1.write prealloc (key, value)
    insertLoop { s with pairs := pairs2 } key value (s.ComputeBucket hash key) prealloc
      fuel HEAD_SLAB_PTR

/-- The body of `SlabHashContext::Remove`'s loop for the serviced lane.  On a
found key the delete CAS succeeds in the single-serviced-lane semantics
(`removeFoundBranch` models the interleaved outcomes): the slot is cleared,
the observed pair index freed, and the lane goes inactive with result `true`.
A chain exhausted without a match yields `false` with nothing freed. -/
def removeLoop (s : SlabHashContext) (key bucket : Nat) :
    Nat → Nat → Option (SlabHashContext × Bool)
  | 0, _ => none
  | fuel + 1, curr_slab_ptr =>
    let sl := s.getSlab bucket curr_slab_ptr
    match WarpFindKey s.pairs key sl with
    | some lane_found =>
      let pair_to_delete := sl.slot lane_found
      let s1 := s.setSlab bucket curr_slab_ptr
                  { sl with pair_ptrs := sl.pair_ptrs.set lane_found EMPTY_PAIR_PTR }
      some ({ s1 with pairs := s1.pairs.Free pair_to_delete }, true)
    | none =>
      if sl.next_slab_ptr = EMPTY_SLAB_PTR then some (s, false)
      else removeLoop s key bucket fuel sl.next_slab_ptr

/-- `SlabHashContext::Remove` for one serviced lane. -/
def SlabHashContext.Remove (s : SlabHashContext) (hash : Nat → Nat) (key fuel : Nat) :
    Option (SlabHashContext × Bool) :=
  removeLoop s key (s.ComputeBucket hash key) fuel HEAD_SLAB_PTR

/-! ## List helper lemmas -/

theorem listGetD_set_self {α : Type} (l : List α) (i : Nat) (x d : α) (h : i < l.length) :
    (l.set i x).getD i d = x := by
  induction l generalizing i with
  | nil => simp at h
  | cons a t ih =>
    cases i with
    | zero => rfl
    | succ n => simpa using ih n (by simpa using h)

theorem listGetD_set_ne {α : Type} (l : List α) (i j : Nat) (x d : α) (h : i ≠ j) :
    (l.set i x).getD j d = l.getD j d := by
  induction l generalizing i j with
  | nil => simp
  | cons a t ih =>
    cases i with
    | zero =>
      cases j with
      | zero => exact absurd rfl h
      | succ m => simp
    | succ n =>
      cases j with
      | zero => simp
      | succ m => simpa using ih n m (fun hc => h (by rw [hc]))

theorem listMem_set {α : Type} (l : List α) (i : Nat) (x : α) (h : i < l.length) :
    x ∈ l.set i x := by
  induction l generalizing i with
  | nil => simp at h
  | cons a t ih =>
    cases i with
    | zero => simp
    | succ n => simpa using Or.inr (ih n (by simpa using h))

/-! ## Ballot, ffs, firstLane -/

theorem ballot_eq_zero_iff (p : Nat → Bool) (n : Nat) :
    ballot p n = 0 ↔ ∀ j < n, p j = false := by
  induction n generalizing p with
  | zero => simp [ballot]
  | succ m ih =>
    constructor
    · intro h j hj
      rw [ballot] at h
      cases hp : p 0 with
      | true => rw [hp, if_pos rfl] at h; omega
      | false =>
        rw [hp, if_neg Bool.false_ne_true] at h
        cases j with
        | zero => exact hp
        | succ i =>
          have := (ih (fun i => p (i + 1))).mp (by omega)
          exact this i (by omega)
    · intro h
      have h0 : p 0 = false := h 0 (Nat.succ_pos m)
      have ht : ballot (fun i => p (i + 1)) m = 0 :=
        (ih (fun i => p (i + 1))).mpr (fun j hj => h (j + 1) (by omega))
      rw [ballot, h0, if_neg Bool.false_ne_true, ht]

theorem firstLane_eq_none_iff (p : Nat → Bool) (n : Nat) :
    firstLane p n = none ↔ ∀ j < n, p j = false := by
  induction n generalizing p with
  | zero =>
    constructor
    · intro _ j hj; omega
    · intro _; rfl
  | succ m ih =>
    cases hp : p 0 with
    | true =>
      constructor
      · intro h
        rw [firstLane, hp, if_pos rfl] at h
        exact Option.noConfusion h
      · intro h
        have := h 0 (Nat.succ_pos m)
        rw [hp] at this
        exact Bool.noConfusion this
    | false =>
      constructor
      · intro h j hj
        rw [firstLane, hp, if_neg Bool.false_ne_true] at h
        cases hfl : firstLane (fun i => p (i + 1)) m with
        | some l => rw [hfl] at h; exact Option.noConfusion h
        | none =>
          cases j with
          | zero => exact hp
          | succ i => exact (ih (fun i => p (i + 1))).mp hfl i (by omega)
      · intro h
        rw [firstLane, hp, if_neg Bool.false_ne_true]
        have : firstLane (fun i => p (i + 1)) m = none :=
          (ih (fun i => p (i + 1))).mpr (fun j hj => h (j + 1) (by omega))
        rw [this]; rfl

theorem firstLane_eq_some (p : Nat → Bool) (n l : Nat)
    (h : firstLane p n = some l) :
    l < n ∧ p l = true ∧ ∀ j < l, p j = false := by
  induction n generalizing p l with
  | zero => exact Option.noConfusion h
  | succ m ih =>
    cases hp : p 0 with
    | true =>
      rw [firstLane, hp, if_pos rfl] at h
      have hl : l = 0 := (Option.some_inj.mp h).symm
      subst hl
      exact ⟨Nat.succ_pos m, hp, fun j hj => absurd hj (Nat.not_lt_zero j)⟩
    | false =>
      rw [firstLane, hp, if_neg Bool.false_ne_true] at h
      cases hfl : firstLane (fun i => p (i + 1)) m with
      | none => rw [hfl] at h; exact Option.noConfusion h
      | some l1 =>
        rw [hfl] at h
        have hl : l1 + 1 = l := Option.some_inj.mp h
        obtain ⟨hlt, hpl, hmin⟩ := ih (fun i => p (i + 1)) l1 hfl
        subst hl
        refine ⟨by omega, hpl, fun j hj => ?_⟩
        cases j with
        | zero => exact hp
        | succ i => exact hmin i (by omega)

theorem ffs_ballot_eq_of_firstLane_some (p : Nat → Bool) (n l : Nat)
    (h : firstLane p n = some l) : ffs (ballot p n) = l + 1 := by
  induction n generalizing p l with
  | zero => exact Option.noConfusion h
  | succ m ih =>
    cases hp : p 0 with
    | true =>
      rw [firstLane, hp, if_pos rfl] at h
      have hl : l = 0 := (Option.some_inj.mp h).symm
      subst hl
      rw [ballot, hp, if_pos rfl]
      rw [ffs]
      have hne : 1 + 2 * ballot (fun i => p (i + 1)) m ≠ 0 := by omega
      rw [dif_neg hne, if_pos (by omega)]
    | false =>
      rw [firstLane, hp, if_neg Bool.false_ne_true] at h
      cases hfl : firstLane (fun i => p (i + 1)) m with
      | none => rw [hfl] at h; exact Option.noConfusion h
      | some l1 =>
        rw [hfl] at h
        have hl : l1 + 1 = l := Option.some_inj.mp h
        subst hl
        rw [ballot, hp, if_neg Bool.false_ne_true]
        have hbne : ballot (fun i => p (i + 1)) m ≠ 0 := by
          intro hz
          have hall := (ballot_eq_zero_iff _ _).mp hz
          have hsome := firstLane_eq_some _ _ _ hfl
          rw [hall l1 hsome.1] at hsome
          exact Bool.noConfusion hsome.2.1
        rw [ffs]
        have hne : 0 + 2 * ballot (fun i => p (i + 1)) m ≠ 0 := by omega
        rw [dif_neg hne]
        rw [if_neg (by omega)]
        have hdiv : (0 + 2 * ballot (fun i => p (i + 1)) m) / 2
            = ballot (fun i => p (i + 1)) m := by omega
        rw [hdiv, ih _ _ hfl]

theorem ffs_ballot_eq_zero_of_firstLane_none (p : Nat → Bool) (n : Nat)
    (h : firstLane p n = none) : ffs (ballot p n) = 0 := by
  have hz : ballot p n = 0 :=
    (ballot_eq_zero_iff p n).mpr ((firstLane_eq_none_iff p n).mp h)
  rw [hz, ffs]; rfl

/-! ## Chain structure: termination, the walked pointer list, validity -/

/-- The walk along slot-31 pointers from `ptr` reaches `EMPTY_SLAB_PTR`
within the given number of steps. -/
def walkEnds (s : SlabHashContext) (bucket : Nat) : Nat → Nat → Bool
  | 0, _ => false
  | f + 1, ptr =>
    if (s.getSlab bucket ptr).next_slab_ptr = EMPTY_SLAB_PTR then true
    else walkEnds s bucket f (s.getSlab bucket ptr).next_slab_ptr

/-- The list of slab pointers visited walking the chain from `ptr`. -/
def chainList (s : SlabHashContext) (bucket : Nat) : Nat → Nat → List Nat
  | 0, _ => []
  | f + 1, ptr =>
    ptr :: (if (s.getSlab bucket ptr).next_slab_ptr = EMPTY_SLAB_PTR then []
            else chainList s bucket f (s.getSlab bucket ptr).next_slab_ptr)

/-- A slab pointer is addressable: the bucket head, or a heap slab in range. -/
def validPtr (s : SlabHashContext) (bucket p : Nat) : Prop :=
  (p = HEAD_SLAB_PTR ∧ bucket < s.heads.length) ∨ p < s.slabs.length

instance (s : SlabHashContext) (bucket p : Nat) : Decidable (validPtr s bucket p) := by
  unfold validPtr; infer_instance

/-- Pair index `j` occurs in some pair slot of the chain from `ptr`. -/
def SlotIn (s : SlabHashContext) (bucket f ptr j : Nat) : Prop :=
  ∃ p ∈ chainList s bucket f ptr, ∃ i ∈ List.range 31, (s.getSlab bucket p).slot i = j

instance (s : SlabHashContext) (bucket f ptr j : Nat) : Decidable (SlotIn s bucket f ptr j) := by
  unfold SlotIn; infer_instance

/-- Pair index `j` is stored in some pair slot of some slab of the table. -/
def SlotInAll (s : SlabHashContext) (j : Nat) : Prop :=
  (∃ sl ∈ s.heads, ∃ i ∈ List.range 31, sl.slot i = j) ∨
  (∃ sl ∈ s.slabs, ∃ i ∈ List.range 31, sl.slot i = j)

instance (s : SlabHashContext) (j : Nat) : Decidable (SlotInAll s j) := by
  unfold SlotInAll; infer_instance

/-- Structural health of one bucket's chain: it terminates, visits no slab
twice, and every visited slab is addressable with its 31 pair words in place. -/
def ChainOK (s : SlabHashContext) (bucket f ptr : Nat) : Prop :=
  walkEnds s bucket f ptr = true ∧ (chainList s bucket f ptr).Nodup ∧
  ∀ p ∈ chainList s bucket f ptr,
    validPtr s bucket p ∧ (s.getSlab bucket p).pair_ptrs.length = 31

instance (s : SlabHashContext) (bucket f ptr : Nat) : Decidable (ChainOK s bucket f ptr) := by
  unfold ChainOK; infer_instance

/-- Well-formedness of the whole table: sizes in range, a healthy chain per
bucket, and a duplicate-free free list whose indices are in range and
referenced by no live slot. -/
def WF (s : SlabHashContext) : Prop :=
  0 < s.num_buckets ∧ s.heads.length = s.num_buckets ∧
  s.slabs.length + 1 < HEAD_SLAB_PTR ∧
  s.pairs.data.length < EMPTY_PAIR_PTR ∧
  s.pairs.free.Nodup ∧
  (∀ j ∈ s.pairs.free, j < s.pairs.data.length) ∧
  (∀ b < s.num_buckets, ChainOK s b (s.slabs.length + 1) HEAD_SLAB_PTR) ∧
  (∀ j ∈ s.pairs.free, ¬ SlotInAll s j)

instance (s : SlabHashContext) : Decidable (WF s) := by
  unfold WF; infer_instance

/-! ## Fuel monotonicity and chain stability -/

theorem walkEnds_mono (s : SlabHashContext) (b : Nat) :
    ∀ f g ptr, walkEnds s b f ptr = true → f ≤ g → walkEnds s b g ptr = true := by
  intro f
  induction f with
  | zero => intro g ptr h; cases h
  | succ m ih =>
    intro g ptr h hle
    cases g with
    | zero => omega
    | succ g1 =>
      rw [walkEnds] at h ⊢
      by_cases hn : (s.getSlab b ptr).next_slab_ptr = EMPTY_SLAB_PTR
      · rw [if_pos hn]
      · rw [if_neg hn] at h ⊢
        exact ih g1 _ h (by omega)

theorem chainList_stable (s : SlabHashContext) (b : Nat) :
    ∀ f g ptr, walkEnds s b f ptr = true → f ≤ g →
      chainList s b g ptr = chainList s b f ptr := by
  intro f
  induction f with
  | zero => intro g ptr h; cases h
  | succ m ih =>
    intro g ptr h hle
    cases g with
    | zero => omega
    | succ g1 =>
      rw [walkEnds] at h
      rw [chainList, chainList]
      by_cases hn : (s.getSlab b ptr).next_slab_ptr = EMPTY_SLAB_PTR
      · rw [if_pos hn, if_pos hn]
      · rw [if_neg hn] at h ⊢
        rw [if_neg hn, ih g1 _ h (by omega)]

theorem searchLoop_mono (s : SlabHashContext) (k b : Nat) :
    ∀ f g ptr r, searchLoop s k b f ptr = some r → f ≤ g →
      searchLoop s k b g ptr = some r := by
  intro f
  induction f with
  | zero => intro g ptr r h; cases h
  | succ m ih =>
    intro g ptr r h hle
    cases g with
    | zero => omega
    | succ g1 =>
      rw [searchLoop] at h ⊢
      cases hk : WarpFindKey s.pairs k (s.getSlab b ptr) with
      | some lane => rw [hk] at h; simpa [hk] using h
      | none =>
        rw [hk] at h
        simp only [hk]
        by_cases hn : (s.getSlab b ptr).next_slab_ptr = EMPTY_SLAB_PTR
        · rw [if_pos hn] at h ⊢; exact h
        · rw [if_neg hn] at h ⊢
          exact ih g1 _ r h (by omega)

theorem removeLoop_mono (s : SlabHashContext) (k b : Nat) :
    ∀ f g ptr r, removeLoop s k b f ptr = some r → f ≤ g →
      removeLoop s k b g ptr = some r := by
  intro f
  induction f with
  | zero => intro g ptr r h; cases h
  | succ m ih =>
    intro g ptr r h hle
    cases g with
    | zero => omega
    | succ g1 =>
      rw [removeLoop] at h ⊢
      cases hk : WarpFindKey s.pairs k (s.getSlab b ptr) with
      | some lane => rw [hk] at h; simpa [hk] using h
      | none =>
        rw [hk] at h
        simp only [hk]
        by_cases hn : (s.getSlab b ptr).next_slab_ptr = EMPTY_SLAB_PTR
        · rw [if_pos hn] at h ⊢; exact h
        · rw [if_neg hn] at h ⊢
          exact ih g1 _ r h (by omega)

/-! ## More list and slab-access helper lemmas -/

theorem listSet_oob {α : Type} (l : List α) (i : Nat) (x : α) (h : l.length ≤ i) :
    l.set i x = l := by
  induction l generalizing i with
  | nil => rfl
  | cons a t ih =>
    cases i with
    | zero => simp at h
    | succ n =>
      show a :: t.set n x = a :: t
      rw [ih n (by simpa using h)]

theorem listMem_of_mem_set {α : Type} (l : List α) (i : Nat) (x a : α)
    (h : a ∈ l.set i x) : a ∈ l ∨ a = x := by
  induction l generalizing i with
  | nil => simp at h
  | cons b t ih =>
    cases i with
    | zero =>
      rcases List.mem_cons.mp h with h1 | h1
      · exact Or.inr h1
      · exact Or.inl (List.mem_cons_of_mem b h1)
    | succ n =>
      rcases List.mem_cons.mp h with h1 | h1
      · exact Or.inl (h1 ▸ List.mem_cons_self b t)
      · rcases ih n h1 with h2 | h2
        · exact Or.inl (List.mem_cons_of_mem b h2)
        · exact Or.inr h2

theorem listGetD_mem {α : Type} (l : List α) (i : Nat) (d : α) (h : i < l.length) :
    l.getD i d ∈ l := by
  rw [List.getD_eq_getElem l d h]
  exact List.getElem_mem h

/-- The next-slab pointer stored at position `(bucket, p)`. -/
def SlabHashContext.nextPtrAt (s : SlabHashContext) (bucket p : Nat) : Nat :=
  (s.getSlab bucket p).next_slab_ptr

theorem getSlab_pairsUpdate (s : SlabHashContext) (pr : MemoryAllocContext) (b p : Nat) :
    (SlabHashContext.getSlab { s with pairs := pr } b p) = s.getSlab b p := rfl

theorem getSlab_setSlab_head_same (s : SlabHashContext) (b : Nat) (sl : Slab)
    (hb : b < s.heads.length) :
    (s.setSlab b HEAD_SLAB_PTR sl).getSlab b HEAD_SLAB_PTR = sl := by
  simp only [SlabHashContext.setSlab, SlabHashContext.getSlab, if_pos rfl]
  exact listGetD_set_self _ _ _ _ hb

theorem getSlab_setSlab_heap_same (s : SlabHashContext) (b b2 ptr : Nat) (sl : Slab)
    (hp : ptr ≠ HEAD_SLAB_PTR) (hlt : ptr < s.slabs.length) :
    (s.setSlab b ptr sl).getSlab b2 ptr = sl := by
  simp only [SlabHashContext.setSlab, SlabHashContext.getSlab, if_neg hp]
  exact listGetD_set_self _ _ _ _ hlt

theorem getSlab_setSlab_ne (s : SlabHashContext) (b ptr : Nat) (sl : Slab) (b2 p : Nat)
    (h : p ≠ ptr ∨ (p = HEAD_SLAB_PTR ∧ ptr = HEAD_SLAB_PTR ∧ b2 ≠ b)) :
    (s.setSlab b ptr sl).getSlab b2 p = s.getSlab b2 p := by
  by_cases hptr : ptr = HEAD_SLAB_PTR
  · subst hptr
    by_cases hp : p = HEAD_SLAB_PTR
    · subst hp
      have hb2 : b2 ≠ b := by
        rcases h with h | h
        · exact absurd rfl h
        · exact h.2.2
      simp only [SlabHashContext.setSlab, SlabHashContext.getSlab, if_pos rfl, if_true]
      exact listGetD_set_ne _ _ _ _ _ (fun hc => hb2 hc.symm)
    · simp [SlabHashContext.setSlab, SlabHashContext.getSlab, hp]
  · by_cases hp : p = HEAD_SLAB_PTR
    · simp [SlabHashContext.setSlab, SlabHashContext.getSlab, hptr, hp]
    · have hne : p ≠ ptr := by
        rcases h with h | h
        · exact h
        · exact absurd h.1 hp
      simp only [SlabHashContext.setSlab, SlabHashContext.getSlab, if_neg hptr, if_neg hp]
      exact listGetD_set_ne _ _ _ _ _ (fun hc => hne hc.symm)

theorem getSlab_append (s : SlabHashContext) (tail : List Slab) (b p : Nat)
    (h : p = HEAD_SLAB_PTR ∨ p < s.slabs.length) :
    (SlabHashContext.getSlab { s with slabs := s.slabs ++ tail } b p) = s.getSlab b p := by
  rcases h with h | h
  · simp only [SlabHashContext.getSlab, if_pos h]
  · have hp : p ≠ HEAD_SLAB_PTR ∨ p = HEAD_SLAB_PTR := em _ |>.symm.imp id id
    by_cases hph : p = HEAD_SLAB_PTR
    · simp only [SlabHashContext.getSlab, if_pos hph]
    · simp only [SlabHashContext.getSlab, if_neg hph]
      exact List.getD_append _ _ _ _ h

theorem getSlab_append_new (s : SlabHashContext) (x : Slab) (b : Nat)
    (h : s.slabs.length ≠ HEAD_SLAB_PTR) :
    (SlabHashContext.getSlab { s with slabs := s.slabs ++ [x] } b s.slabs.length) = x := by
  simp only [SlabHashContext.getSlab, if_neg h]
  rw [List.getD_append_right _ _ _ _ (Nat.le_refl _), Nat.sub_self]
  rfl

/-! ## Claim C9: the bucket index -/

/-- **C9.** For every key the bucket index used by all three operations is
`hash(key) mod num_buckets` for the pure hash functor; in the built-in
ConcurrentMap variant the hash is `((x XOR key) + y) mod 4294967291` in
unsigned 32-bit arithmetic; for positive `num_buckets` the bucket index is
below `num_buckets`, and equal keys always map to equal buckets. -/
theorem c9_compute_bucket_hash_mod
    (s : SlabHashContext) (hash : Nat → Nat) (x y k k2 v fuel : Nat)
    (hnb : 0 < s.num_buckets) :
    s.ComputeBucket hash k = hash k % s.num_buckets
    ∧ s.Search hash k fuel = searchLoop s k (hash k % s.num_buckets) fuel HEAD_SLAB_PTR
    ∧ s.Remove hash k fuel = removeLoop s k (hash k % s.num_buckets) fuel HEAD_SLAB_PTR
    ∧ (∀ pr : Nat × MemoryAllocContext, s.pairs.Allocate = some pr →
        s.Insert hash k v fuel =
          insertLoop { s with pairs := pr.2.write pr.1 (k, v) } k v
            (hash k % s.num_buckets) pr.1 fuel HEAD_SLAB_PTR)
    ∧ s.ComputeBucket (concurrentHash x y) k
        = (((x ^^^ k) + y) % 4294967296 % 4294967291) % s.num_buckets
    ∧ s.ComputeBucket (concurrentHash x y) k < s.num_buckets
    ∧ (k = k2 → s.ComputeBucket hash k = s.ComputeBucket hash k2) := by
  refine ⟨rfl, rfl, rfl, ?_, rfl, Nat.mod_lt _ hnb, ?_⟩
  · intro pr hpr
    obtain ⟨a, c⟩ := pr
    rw [SlabHashContext.Insert, hpr]
    rfl
  · intro hk; rw [hk]

/-- A one-bucket table with an all-empty head slab and a two-record pool. -/
def exampleTable : SlabHashContext :=
  ⟨1, [emptySlab], [], ⟨[(0, 0), (0, 0)], [0, 1]⟩⟩

/-- Witness for C9 at a concrete table, hash and key. -/
theorem c9_compute_bucket_hash_mod_witness :
    exampleTable.ComputeBucket (concurrentHash 3 4) 10
      = (((3 ^^^ 10) + 4) % 4294967296 % 4294967291) % 1
    ∧ exampleTable.ComputeBucket (concurrentHash 3 4) 10 < 1 := by
  have h := c9_compute_bucket_hash_mod exampleTable (fun x => x) 3 4 10 10 0 0 (by decide)
  exact ⟨h.2.2.2.2.1, h.2.2.2.2.2.1⟩

/-! ## Claim C7: the warp-cooperative work-sharing loop skeleton -/

/-- One iteration header of the warp-cooperative loop shared by Search, Insert
and Remove (Search lines 229-238): the ballot of active lanes guards the loop
(`none` = exit), `src_lane = __ffs(work_queue) - 1` is serviced, its bucket and
key are broadcast via `__shfl_sync`, and `curr_slab_ptr` resets to the head
exactly when the ballot changed since the previous iteration. -/
def warpIterHeader (active : Nat → Bool) (bucket key : Nat → Nat)
    (prev_work_queue curr_slab_ptr : Nat) : Option (Nat × Nat × Nat × Nat) :=
  let work_queue := ballot active WARP_WIDTH
  if work_queue = 0 then none
  else
    let src_lane := ffs work_queue - 1
    some (src_lane, bucket src_lane, key src_lane,
          if prev_work_queue ≠ work_queue then HEAD_SLAB_PTR else curr_slab_ptr)

/-- **C7.** In every iteration exactly one lane — the lowest set bit of the
ballot of active lanes — is serviced; its bucket and key are the broadcast
values; the current slab pointer resets to the bucket head exactly when the
ballot differs from the previous iteration's; the loop exits exactly when the
ballot is zero. -/
theorem c7_warp_loop_skeleton (active : Nat → Bool) (bucket key : Nat → Nat)
    (prev curr : Nat) (h : ballot active WARP_WIDTH ≠ 0) :
    (∃ l, firstLane active WARP_WIDTH = some l
      ∧ warpIterHeader active bucket key prev curr =
          some (l, bucket l, key l,
            if prev ≠ ballot active WARP_WIDTH then HEAD_SLAB_PTR else curr)
      ∧ active l = true ∧ (∀ j < l, active j = false) ∧ l < WARP_WIDTH)
    ∧ (∀ a2 : Nat → Bool, ballot a2 WARP_WIDTH = 0 →
        warpIterHeader a2 bucket key prev curr = none) := by
  constructor
  · cases hfl : firstLane active WARP_WIDTH with
    | none =>
      exact absurd ((ballot_eq_zero_iff active WARP_WIDTH).mpr
        ((firstLane_eq_none_iff active WARP_WIDTH).mp hfl)) h
    | some l =>
      obtain ⟨hlt, hp, hmin⟩ := firstLane_eq_some active WARP_WIDTH l hfl
      refine ⟨l, rfl, ?_, hp, hmin, hlt⟩
      rw [warpIterHeader]
      simp only [if_neg h]
      rw [ffs_ballot_eq_of_firstLane_some active WARP_WIDTH l hfl]
      rfl
  · intro a2 hz
    simp [warpIterHeader, hz]

/-- Witness for C7 with lanes 3 and 7 active. -/
theorem c7_warp_loop_skeleton_witness :
    warpIterHeader (fun i => decide (i = 3 ∨ i = 7)) (fun i => 10 * i) (fun i => 100 * i) 5 77
      = some (3, 30, 300, HEAD_SLAB_PTR) := by
  have h := c7_warp_loop_skeleton (fun i => decide (i = 3 ∨ i = 7))
    (fun i => 10 * i) (fun i => 100 * i) 5 77 (by decide)
  obtain ⟨⟨l, hfl, heq, _, _, _⟩, _⟩ := h
  have hl : l = 3 := by
    have : firstLane (fun i => decide (i = 3 ∨ i = 7)) WARP_WIDTH = some 3 := by decide
    rw [this] at hfl
    exact (Option.some_inj.mp hfl).symm
  subst hl
  rw [heq]
  have hb : ballot (fun i => decide (i = 3 ∨ i = 7)) WARP_WIDTH = 136 := by decide
  rw [hb]
  norm_num

theorem setSlab_pairs (s : SlabHashContext) (b ptr : Nat) (sl : Slab) :
    (s.setSlab b ptr sl).pairs = s.pairs := by
  unfold SlabHashContext.setSlab
  by_cases h : ptr = HEAD_SLAB_PTR
  · rw [if_pos h]
  · rw [if_neg h]

theorem setSlab_num_buckets (s : SlabHashContext) (b ptr : Nat) (sl : Slab) :
    (s.setSlab b ptr sl).num_buckets = s.num_buckets := by
  unfold SlabHashContext.setSlab
  by_cases h : ptr = HEAD_SLAB_PTR
  · rw [if_pos h]
  · rw [if_neg h]

/-! ## Claim C2: Remove's delete CAS -/

/-- The found branch of `Remove` (lines 455-480): `observed` is the pair index
the warp-wide read found (the value broadcast from `lane_found` and freed on
success), `reread` is `pair_to_delete = *unit_data_ptr`, and `cas_time` is the
slot's content when the atomic CAS executes.  Components of the result: the
slot word after the CAS, the pair index passed to `Free` (if any), the lane's
result, and the lane's active flag (cleared either way: no second pass). -/
def removeFoundBranch (observed reread cas_time : Nat) :
    Nat × Option Nat × Bool × Bool :=
  if cas_time = reread then (EMPTY_PAIR_PTR, some observed, true, false)
  else (cas_time, none, false, false)

/-- **C2.** Remove of a found key CASes the matching slot from the observed
pair index to `EMPTY_PAIR_PTR`: on CAS success exactly the observed pair index
is freed and Remove reports `true`; on CAS failure nothing is freed and Remove
reports `false`; the lane's active flag is cleared in both outcomes, and in
the loop the found branch finishes the lane in that iteration — the result is
independent of any remaining fuel, so no second pass over the chain occurs. -/
theorem c2_remove_found_cas (observed reread cas_time : Nat)
    (hrr : reread = observed) :
    (cas_time = observed →
      removeFoundBranch observed reread cas_time
        = (EMPTY_PAIR_PTR, some observed, true, false))
    ∧ (cas_time ≠ observed →
      removeFoundBranch observed reread cas_time = (cas_time, none, false, false))
    ∧ (removeFoundBranch observed reread cas_time).2.2.2 = false
    ∧ (∀ (s : SlabHashContext) (k2 b2 ptr fuel fuel2 lane : Nat),
        WarpFindKey s.pairs k2 (s.getSlab b2 ptr) = some lane →
        (removeLoop s k2 b2 (fuel + 1) ptr).map Prod.snd = some true
        ∧ removeLoop s k2 b2 (fuel2 + 1) ptr = removeLoop s k2 b2 (fuel + 1) ptr
        ∧ (removeLoop s k2 b2 (fuel + 1) ptr).map (fun z => z.1.pairs.free)
            = some ((s.getSlab b2 ptr).slot lane :: s.pairs.free)) := by
  subst hrr
  refine ⟨?_, ?_, ?_, ?_⟩
  · intro hc; rw [removeFoundBranch, if_pos hc]
  · intro hc; rw [removeFoundBranch, if_neg hc]
  · rw [removeFoundBranch]
    by_cases hc : cas_time = reread
    · rw [if_pos hc]
    · rw [if_neg hc]
  · intro s k2 b2 ptr fuel fuel2 lane hfound
    refine ⟨?_, ?_, ?_⟩
    · rw [removeLoop]; simp only [hfound]; rfl
    · rw [removeLoop]; simp only [hfound]
      rw [removeLoop]; simp only [hfound]
    · rw [removeLoop]
      simp only [hfound, Option.map_some]
      rw [setSlab_pairs]
      rfl

/-- Witness for C2 at concrete slot values (CAS success and CAS failure). -/
theorem c2_remove_found_cas_witness :
    removeFoundBranch 5 5 5 = (EMPTY_PAIR_PTR, some 5, true, false)
    ∧ removeFoundBranch 5 5 9 = (9, none, false, false) :=
  ⟨(c2_remove_found_cas 5 5 5 rfl).1 rfl,
   (c2_remove_found_cas 5 5 9 rfl).2.1 (by decide)⟩

/-! ## Claim C4: slot 31 is written at most once -/

/-- Branch 3.2 of Insert (lines 387-412): after the warp-cooperative slab
allocation, lane 31 CASes slot 31 from `EMPTY_SLAB_PTR` to the fresh slab
index; `slot31_at_cas` is the slot's content when the CAS executes.  Result:
the slot word after the CAS and whether `FreeSlab` (`free_untouched`) was
called on the fresh slab. -/
def insertBranch32 (new_slab_ptr slot31_at_cas : Nat) : Nat × Bool :=
  if slot31_at_cas = EMPTY_SLAB_PTR then (new_slab_ptr, false)
  else (slot31_at_cas, true)

/-- Branch 3.1 (lines 379-385): with a non-empty slot 31 the walk proceeds
into that slab. -/
def branch3Follow (next_slab_ptr curr_slab_ptr : Nat) : Nat :=
  if next_slab_ptr ≠ EMPTY_SLAB_PTR then next_slab_ptr else curr_slab_ptr

theorem nextPtrAt_setSlab_keep (s : SlabHashContext) (b ptr : Nat) (sl : Slab)
    (h : sl.next_slab_ptr = (s.getSlab b ptr).next_slab_ptr) (b2 p : Nat) :
    (s.setSlab b ptr sl).nextPtrAt b2 p = s.nextPtrAt b2 p := by
  by_cases hptr : ptr = HEAD_SLAB_PTR
  · subst hptr
    by_cases hp : p = HEAD_SLAB_PTR
    · subst hp
      by_cases hb2 : b2 = b
      · subst hb2
        by_cases hb : b2 < s.heads.length
        · unfold SlabHashContext.nextPtrAt
          rw [getSlab_setSlab_head_same _ _ _ hb, h]
        · have hset : s.heads.set b2 sl = s.heads := listSet_oob _ _ _ (Nat.le_of_not_lt hb)
          simp [SlabHashContext.nextPtrAt, SlabHashContext.setSlab,
            SlabHashContext.getSlab, hset]
      · unfold SlabHashContext.nextPtrAt
        rw [getSlab_setSlab_ne s b HEAD_SLAB_PTR sl b2 HEAD_SLAB_PTR
          (Or.inr ⟨rfl, rfl, hb2⟩)]
    · unfold SlabHashContext.nextPtrAt
      rw [getSlab_setSlab_ne s b HEAD_SLAB_PTR sl b2 p (Or.inl hp)]
  · by_cases hp : p = ptr
    · subst hp
      by_cases hlt : p < s.slabs.length
      · unfold SlabHashContext.nextPtrAt
        rw [getSlab_setSlab_heap_same s b b2 p sl hptr hlt, h]
        unfold SlabHashContext.getSlab
        rw [if_neg hptr, if_neg hptr]
      · have hset : s.slabs.set p sl = s.slabs := listSet_oob _ _ _ (Nat.le_of_not_lt hlt)
        simp [SlabHashContext.nextPtrAt, SlabHashContext.setSlab,
          SlabHashContext.getSlab, hset, hptr]
    · unfold SlabHashContext.nextPtrAt
      rw [getSlab_setSlab_ne s b ptr sl b2 p (Or.inl hp)]

theorem nextPtrAt_setSlab_cases (s : SlabHashContext) (b ptr : Nat) (sl : Slab) (b2 p : Nat) :
    (s.setSlab b ptr sl).nextPtrAt b2 p = s.nextPtrAt b2 p
    ∨ s.nextPtrAt b2 p = s.nextPtrAt b ptr := by
  by_cases hptr : ptr = HEAD_SLAB_PTR
  · subst hptr
    by_cases hp : p = HEAD_SLAB_PTR
    · subst hp
      by_cases hb2 : b2 = b
      · subst hb2; exact Or.inr rfl
      · exact Or.inl (congrArg Slab.next_slab_ptr
          (getSlab_setSlab_ne s b HEAD_SLAB_PTR sl b2 HEAD_SLAB_PTR (Or.inr ⟨rfl, rfl, hb2⟩)))
    · exact Or.inl (congrArg Slab.next_slab_ptr
        (getSlab_setSlab_ne s b HEAD_SLAB_PTR sl b2 p (Or.inl hp)))
  · by_cases hp : p = ptr
    · subst hp
      refine Or.inr ?_
      unfold SlabHashContext.nextPtrAt SlabHashContext.getSlab
      rw [if_neg hptr, if_neg hptr]
    · exact Or.inl (congrArg Slab.next_slab_ptr
        (getSlab_setSlab_ne s b ptr sl b2 p (Or.inl hp)))

theorem nextPtrAt_push_keep (s : SlabHashContext) (b2 p : Nat)
    (h : s.nextPtrAt b2 p ≠ EMPTY_SLAB_PTR) :
    (SlabHashContext.nextPtrAt { s with slabs := s.slabs ++ [emptySlab] } b2 p)
      = s.nextPtrAt b2 p := by
  by_cases hp : p = HEAD_SLAB_PTR
  · unfold SlabHashContext.nextPtrAt SlabHashContext.getSlab
    rw [if_pos hp, if_pos hp]
  · by_cases hlt : p < s.slabs.length
    · unfold SlabHashContext.nextPtrAt
      rw [getSlab_append s [emptySlab] b2 p (Or.inr hlt)]
    · exfalso
      apply h
      unfold SlabHashContext.nextPtrAt SlabHashContext.getSlab
      rw [if_neg hp, List.getD_eq_default _ _ (Nat.le_of_not_lt hlt)]
      rfl

theorem insertLoop_next_preserved (k v b idx : Nat) :
    ∀ f s ptr s' it r, insertLoop s k v b idx f ptr = some (s', it, r) →
      ∀ b2 p, s.nextPtrAt b2 p ≠ EMPTY_SLAB_PTR →
        s'.nextPtrAt b2 p = s.nextPtrAt b2 p := by
  intro f
  induction f with
  | zero => intro s ptr s' it r h; exact Option.noConfusion h
  | succ m ih =>
    intro s ptr s' it r h b2 p hne
    rw [insertLoop] at h
    cases hk : WarpFindKey s.pairs k (s.getSlab b ptr) with
    | some lane =>
      simp only [hk, Option.some_inj, Prod.mk.injEq] at h
      obtain ⟨h1, _, _⟩ := h
      rw [← h1]
      rfl
    | none =>
      simp only [hk] at h
      cases he : WarpFindEmpty (s.getSlab b ptr) with
      | some lane_empty =>
        simp only [he, Option.some_inj, Prod.mk.injEq] at h
        obtain ⟨h1, _, _⟩ := h
        rw [← h1]
        exact nextPtrAt_setSlab_keep s b ptr
          { pair_ptrs := (s.getSlab b ptr).pair_ptrs.set lane_empty idx,
            next_slab_ptr := (s.getSlab b ptr).next_slab_ptr } rfl b2 p
      | none =>
        simp only [he] at h
        by_cases hn : (s.getSlab b ptr).next_slab_ptr = EMPTY_SLAB_PTR
        · rw [if_neg (not_not_intro hn)] at h
          have hkeep1 : (SlabHashContext.nextPtrAt
              { s with slabs := s.slabs ++ [emptySlab] } b2 p) = s.nextPtrAt b2 p :=
            nextPtrAt_push_keep s b2 p hne
          rcases nextPtrAt_setSlab_cases { s with slabs := s.slabs ++ [emptySlab] } b ptr
              { s.getSlab b ptr with next_slab_ptr := s.slabs.length } b2 p with hcase | hcase
          · have hne2 : (SlabHashContext.nextPtrAt
                ((SlabHashContext.setSlab { s with slabs := s.slabs ++ [emptySlab] } b ptr
                  { s.getSlab b ptr with next_slab_ptr := s.slabs.length })) b2 p)
                ≠ EMPTY_SLAB_PTR := by
              rw [hcase, hkeep1]; exact hne
            have hres := ih _ _ _ _ _ h b2 p hne2
            rw [hres, hcase, hkeep1]
          · exfalso
            have hend : (SlabHashContext.nextPtrAt
                { s with slabs := s.slabs ++ [emptySlab] } b ptr) = EMPTY_SLAB_PTR := by
              by_cases hph : ptr = HEAD_SLAB_PTR
              · have : (SlabHashContext.nextPtrAt
                    { s with slabs := s.slabs ++ [emptySlab] } b ptr) = s.nextPtrAt b ptr := by
                  unfold SlabHashContext.nextPtrAt SlabHashContext.getSlab
                  rw [if_pos hph, if_pos hph]
                rw [this]; exact hn
              · by_cases hplt : ptr < s.slabs.length
                · have : (SlabHashContext.nextPtrAt
                      { s with slabs := s.slabs ++ [emptySlab] } b ptr) = s.nextPtrAt b ptr := by
                    unfold SlabHashContext.nextPtrAt
                    rw [getSlab_append s [emptySlab] b ptr (Or.inr hplt)]
                  rw [this]; exact hn
                · unfold SlabHashContext.nextPtrAt SlabHashContext.getSlab
                  rw [if_neg hph]
                  rw [List.getD_append_right _ _ _ _ (Nat.le_of_not_lt hplt)]
                  cases hd : ptr - s.slabs.length with
                  | zero => rfl
                  | succ n => rfl
            apply hne
            rw [← hkeep1, hcase, hend]
        · rw [if_pos hn] at h
          exact ih _ _ _ _ _ h b2 p hne

theorem removeLoop_next_preserved (k b : Nat) :
    ∀ f s ptr s' r, removeLoop s k b f ptr = some (s', r) →
      ∀ b2 p, s'.nextPtrAt b2 p = s.nextPtrAt b2 p := by
  intro f
  induction f with
  | zero => intro s ptr s' r h; exact Option.noConfusion h
  | succ m ih =>
    intro s ptr s' r h b2 p
    rw [removeLoop] at h
    cases hk : WarpFindKey s.pairs k (s.getSlab b ptr) with
    | some lane =>
      simp only [hk, Option.some_inj, Prod.mk.injEq] at h
      obtain ⟨h1, _⟩ := h
      rw [← h1]
      exact nextPtrAt_setSlab_keep s b ptr
        { pair_ptrs := (s.getSlab b ptr).pair_ptrs.set lane EMPTY_PAIR_PTR,
          next_slab_ptr := (s.getSlab b ptr).next_slab_ptr } rfl b2 p
    | none =>
      simp only [hk] at h
      by_cases hn : (s.getSlab b ptr).next_slab_ptr = EMPTY_SLAB_PTR
      · rw [if_pos hn] at h
        simp only [Option.some_inj, Prod.mk.injEq] at h
        rw [← h.1]
      · rw [if_neg hn] at h
        exact ih _ _ _ _ h b2 p

/-- **C4.** Once a slab's slot 31 holds a value other than `EMPTY_SLAB_PTR`,
neither Insert nor Remove ever changes it (Search writes nothing by
construction: it returns only a result).  When Insert's branch 3.2 allocates a
fresh slab and lane 31's CAS on slot 31 loses, the fresh slab is released via
`free_untouched`, slot 31 keeps the winning slab index, and the next iteration
(branch 3.1) walks into the winner's slab. -/
theorem c4_next_slab_ptr_write_once
    (s sI s2 sR : SlabHashContext) (hash : Nat → Nat)
    (k v k2 it f f2 : Nat) (r r2 : Bool) (new_slab winner curr : Nat)
    (hrunI : s.Insert hash k v f = some (sI, it, r))
    (hrunR : s2.Remove hash k2 f2 = some (sR, r2))
    (hlost : winner ≠ EMPTY_SLAB_PTR) :
    (∀ b2 p, s.nextPtrAt b2 p ≠ EMPTY_SLAB_PTR → sI.nextPtrAt b2 p = s.nextPtrAt b2 p)
    ∧ (∀ b2 p, sR.nextPtrAt b2 p = s2.nextPtrAt b2 p)
    ∧ insertBranch32 new_slab winner = (winner, true)
    ∧ insertBranch32 new_slab EMPTY_SLAB_PTR = (new_slab, false)
    ∧ branch3Follow winner curr = winner := by
  refine ⟨?_, ?_, ?_, ?_, ?_⟩
  · intro b2 p hne
    rw [SlabHashContext.Insert] at hrunI
    cases hA : s.pairs.Allocate with
    | none =>
      rw [hA] at hrunI
      simp only [Option.some_inj, Prod.mk.injEq] at hrunI
      rw [← hrunI.1]
    | some pr =>
      rw [hA] at hrunI
      obtain ⟨a, c⟩ := pr
      exact insertLoop_next_preserved k v (s.ComputeBucket hash k) a f _ HEAD_SLAB_PTR
        sI it r hrunI b2 p hne
  · intro b2 p
    rw [SlabHashContext.Remove] at hrunR
    exact removeLoop_next_preserved k2 (s2.ComputeBucket hash k2) f2 s2 HEAD_SLAB_PTR
      sR r2 hrunR b2 p
  · rw [insertBranch32, if_neg hlost]
  · rw [insertBranch32, if_pos rfl]
  · rw [branch3Follow, if_pos hlost]

/-- A one-bucket table whose head slab already chains to heap slab 0. -/
def chainTable : SlabHashContext :=
  ⟨1, [⟨List.replicate 31 EMPTY_PAIR_PTR, 0⟩], [emptySlab], ⟨[(0, 0), (0, 0)], [0, 1]⟩⟩

/-- The table `chainTable` after inserting key 5 with value 7. -/
def c4sI : SlabHashContext :=
  ⟨1, [⟨0 :: List.replicate 30 EMPTY_PAIR_PTR, 0⟩], [emptySlab], ⟨[(5, 7), (0, 0)], [1]⟩⟩

/-- Witness for C4 on a concrete chained table. -/
theorem c4_next_slab_ptr_write_once_witness :
    chainTable.nextPtrAt 0 HEAD_SLAB_PTR ≠ EMPTY_SLAB_PTR
    ∧ c4sI.nextPtrAt 0 HEAD_SLAB_PTR = chainTable.nextPtrAt 0 HEAD_SLAB_PTR
    ∧ insertBranch32 1 3 = (3, true) := by
  have h := c4_next_slab_ptr_write_once chainTable c4sI chainTable chainTable
    (fun x => x) 5 7 9 0 4 4 true false 1 3 7 (by decide) (by decide) (by decide)
  exact ⟨by decide, h.1 0 HEAD_SLAB_PTR (by decide), h.2.2.1⟩

/-! ## Claim C10: the bulk Insert interface reports nothing per element -/

/-- One lane of `InsertKernel` (lines 538-565): runs the device `Insert` and
discards the returned (iterator, success) pair — the kernel is given no output
arrays and stores no per-element outcome. -/
def insertKernelLane (s : SlabHashContext) (hash : Nat → Nat) (key value fuel : Nat) :
    Option SlabHashContext :=
  (s.Insert hash key value fuel).map (fun z => z.1)

/-- The bulk host `Insert` (lines 696-705): launches `InsertKernel` over the
batch; the only host-visible effect is the updated table. -/
def SlabHashContext.InsertBulk (s : SlabHashContext) (hash : Nat → Nat)
    (kvs : List (Nat × Nat)) (fuel : Nat) : Option SlabHashContext :=
  kvs.foldl (fun acc kv => acc.bind (fun st => insertKernelLane st hash kv.1 kv.2 fuel))
    (some s)

/-- **C10.** (implicit) The bulk Insert interface discards every per-lane
outcome: whatever (iterator, success) pair the device `Insert` returns, the
kernel lane's host-visible result is only the updated table, so a successful
insertion and a duplicate-abort (concretely exhibited on `exampleTable`, where
the same key inserted twice yields device results `true` then `false`) are
indistinguishable through this API, whose bulk form also only folds states. -/
theorem c10_insert_kernel_discards_results
    (s s' : SlabHashContext) (hash : Nat → Nat) (k v it fuel : Nat) (r : Bool)
    (hrun : s.Insert hash k v fuel = some (s', it, r)) :
    insertKernelLane s hash k v fuel = some s'
    ∧ s.InsertBulk hash [(k, v)] fuel = some s'
    ∧ ((exampleTable.Insert (fun x => x) 5 7 3).map (fun z => z.2.2) = some true)
    ∧ (((exampleTable.Insert (fun x => x) 5 7 3).bind
          (fun z => z.1.Insert (fun x => x) 5 9 3)).map (fun z => z.2.2) = some false)
    ∧ (exampleTable.InsertBulk (fun x => x) [(5, 7), (5, 9)] 3
        = ((exampleTable.Insert (fun x => x) 5 7 3).bind
            (fun z => z.1.Insert (fun x => x) 5 9 3)).map (fun z => z.1)) := by
  refine ⟨?_, ?_, by decide, by decide, by decide⟩
  · rw [insertKernelLane, hrun]
    rfl
  · rw [SlabHashContext.InsertBulk]
    show insertKernelLane s hash k v fuel = some s'
    rw [insertKernelLane, hrun]
    rfl

/-- The table `exampleTable` after inserting key 5 with value 7. -/
def c10sA : SlabHashContext :=
  ⟨1, [⟨0 :: List.replicate 30 EMPTY_PAIR_PTR, EMPTY_SLAB_PTR⟩], [], ⟨[(5, 7), (0, 0)], [1]⟩⟩

/-- Witness for C10 at a concrete run. -/
theorem c10_insert_kernel_discards_results_witness :
    insertKernelLane exampleTable (fun x => x) 5 7 3 = some c10sA := by
  have h := c10_insert_kernel_discards_results exampleTable c10sA (fun x => x)
    5 7 0 3 true (by decide)
  exact h.1

/-! ## Claim C5: Insert's pre-allocation discipline -/

theorem listGetD_replicate {α : Type} (n i : Nat) (d : α) :
    (List.replicate n d).getD i d = d := by
  induction n generalizing i with
  | zero => rfl
  | succ m ih =>
    cases i with
    | zero => rfl
    | succ j => exact ih j

theorem emptySlab_slot (i : Nat) : emptySlab.slot i = EMPTY_PAIR_PTR :=
  listGetD_replicate 31 i EMPTY_PAIR_PTR

/-- Addressability of the slabs a walk may touch, fuel-indexed: every visited
slab is a valid pointer with its 31 pair words in place. -/
def walkInvB (s : SlabHashContext) (bucket : Nat) : Nat → Nat → Bool
  | 0, _ => true
  | f + 1, ptr =>
    decide (validPtr s bucket ptr) &&
    decide ((s.getSlab bucket ptr).pair_ptrs.length = 31) &&
    (if (s.getSlab bucket ptr).next_slab_ptr = EMPTY_SLAB_PTR then true
     else walkInvB s bucket f (s.getSlab bucket ptr).next_slab_ptr)

theorem getSlab_congr (s1 s2 : SlabHashContext) (hh : s1.heads = s2.heads)
    (hs : s1.slabs = s2.slabs) (b p : Nat) : s1.getSlab b p = s2.getSlab b p := by
  unfold SlabHashContext.getSlab
  rw [hh, hs]

theorem validPtr_congr (s1 s2 : SlabHashContext) (hh : s1.heads = s2.heads)
    (hs : s1.slabs = s2.slabs) (b p : Nat) : validPtr s1 b p ↔ validPtr s2 b p := by
  unfold validPtr
  rw [hh, hs]

theorem walkEnds_congr (s1 s2 : SlabHashContext) (hh : s1.heads = s2.heads)
    (hs : s1.slabs = s2.slabs) (b : Nat) :
    ∀ f ptr, walkEnds s1 b f ptr = walkEnds s2 b f ptr := by
  intro f
  induction f with
  | zero => intro ptr; rfl
  | succ m ih =>
    intro ptr
    rw [walkEnds, walkEnds, getSlab_congr s1 s2 hh hs]
    by_cases hn : (s2.getSlab b ptr).next_slab_ptr = EMPTY_SLAB_PTR
    · rw [if_pos hn, if_pos hn]
    · rw [if_neg hn, if_neg hn, ih]

theorem chainList_congr (s1 s2 : SlabHashContext) (hh : s1.heads = s2.heads)
    (hs : s1.slabs = s2.slabs) (b : Nat) :
    ∀ f ptr, chainList s1 b f ptr = chainList s2 b f ptr := by
  intro f
  induction f with
  | zero => intro ptr; rfl
  | succ m ih =>
    intro ptr
    rw [chainList, chainList, getSlab_congr s1 s2 hh hs]
    by_cases hn : (s2.getSlab b ptr).next_slab_ptr = EMPTY_SLAB_PTR
    · rw [if_pos hn, if_pos hn]
    · rw [if_neg hn, if_neg hn, ih]

theorem walkInvB_congr (s1 s2 : SlabHashContext) (hh : s1.heads = s2.heads)
    (hs : s1.slabs = s2.slabs) (b : Nat) :
    ∀ f ptr, walkInvB s1 b f ptr = walkInvB s2 b f ptr := by
  intro f
  induction f with
  | zero => intro ptr; rfl
  | succ m ih =>
    intro ptr
    rw [walkInvB, walkInvB, getSlab_congr s1 s2 hh hs]
    have hvp : decide (validPtr s1 b ptr) = decide (validPtr s2 b ptr) := by
      by_cases hv : validPtr s2 b ptr
      · rw [decide_eq_true hv, decide_eq_true ((validPtr_congr s1 s2 hh hs b ptr).mpr hv)]
      · rw [decide_eq_false hv, decide_eq_false
          (fun hc => hv ((validPtr_congr s1 s2 hh hs b ptr).mp hc))]
    rw [hvp]
    by_cases hn : (s2.getSlab b ptr).next_slab_ptr = EMPTY_SLAB_PTR
    · rw [if_pos hn, if_pos hn]
    · rw [if_neg hn, if_neg hn, ih]

theorem walkInvB_of_chain (s : SlabHashContext) (b : Nat) :
    ∀ g f ptr, walkEnds s b f ptr = true →
      (∀ p ∈ chainList s b f ptr,
        validPtr s b p ∧ (s.getSlab b p).pair_ptrs.length = 31) →
      walkInvB s b g ptr = true := by
  intro g
  induction g with
  | zero => intro f ptr _ _; rfl
  | succ m ih =>
    intro f ptr hend hcond
    cases f with
    | zero => exact Bool.noConfusion hend
    | succ f1 =>
      rw [walkEnds] at hend
      have hmem : ptr ∈ chainList s b (f1 + 1) ptr := by
        rw [chainList]; exact List.mem_cons_self _ _
      obtain ⟨hv, hl⟩ := hcond ptr hmem
      rw [walkInvB, Bool.and_assoc, Bool.and_eq_true, Bool.and_eq_true]
      refine ⟨decide_eq_true hv, decide_eq_true hl, ?_⟩
      by_cases hn : (s.getSlab b ptr).next_slab_ptr = EMPTY_SLAB_PTR
      · rw [if_pos hn]
      · rw [if_neg hn]
        rw [if_neg hn] at hend
        apply ih f1 _ hend
        intro p hp
        apply hcond
        rw [chainList, if_neg hn]
        exact List.mem_cons_of_mem _ hp

theorem SlotIn_imp_SlotInAll (s : SlabHashContext) (b f ptr j : Nat)
    (hsz : s.slabs.length ≤ HEAD_SLAB_PTR)
    (hchain : ∀ p ∈ chainList s b f ptr, validPtr s b p)
    (hj : SlotIn s b f ptr j) : SlotInAll s j := by
  obtain ⟨p, hp, i, hi, heq⟩ := hj
  rcases hchain p hp with ⟨hhd, hb⟩ | hlt
  · left
    refine ⟨s.getSlab b p, ?_, i, hi, heq⟩
    rw [SlabHashContext.getSlab, if_pos hhd]
    exact listGetD_mem _ _ _ hb
  · right
    refine ⟨s.getSlab b p, ?_, i, hi, heq⟩
    have hph : p ≠ HEAD_SLAB_PTR := by omega
    rw [SlabHashContext.getSlab, if_neg hph]
    exact listGetD_mem _ _ _ hlt

theorem setSlab_slabs_length (s : SlabHashContext) (b ptr : Nat) (sl : Slab) :
    (s.setSlab b ptr sl).slabs.length = s.slabs.length := by
  unfold SlabHashContext.setSlab
  by_cases h : ptr = HEAD_SLAB_PTR
  · rw [if_pos h]
  · rw [if_neg h]
    exact List.length_set _ _ _

theorem setSlab_heads_length (s : SlabHashContext) (b ptr : Nat) (sl : Slab) :
    (s.setSlab b ptr sl).heads.length = s.heads.length := by
  unfold SlabHashContext.setSlab
  by_cases h : ptr = HEAD_SLAB_PTR
  · rw [if_pos h]
    exact List.length_set _ _ _
  · rw [if_neg h]

theorem getSlab_mem (s : SlabHashContext) (b ptr : Nat)
    (hsz : s.slabs.length ≤ HEAD_SLAB_PTR) (hv : validPtr s b ptr) :
    s.getSlab b ptr ∈ s.heads ∨ s.getSlab b ptr ∈ s.slabs := by
  rcases hv with ⟨hhd, hb⟩ | hlt
  · left
    rw [SlabHashContext.getSlab, if_pos hhd]
    exact listGetD_mem _ _ _ hb
  · right
    have hph : ptr ≠ HEAD_SLAB_PTR := by omega
    rw [SlabHashContext.getSlab, if_neg hph]
    exact listGetD_mem _ _ _ hlt

/-- Referencing `idx` in the state after Insert's branch 3.2 linked a fresh
empty slab implies it was referenced before. -/
theorem SlotInAll_linkStep (s : SlabHashContext) (b ptr nxt idx : Nat)
    (hsz : s.slabs.length ≤ HEAD_SLAB_PTR)
    (hv : validPtr s b ptr) (hidxE : idx ≠ EMPTY_PAIR_PTR)
    (hS : SlotInAll
      (SlabHashContext.setSlab { s with slabs := s.slabs ++ [emptySlab] } b ptr
        { s.getSlab b ptr with next_slab_ptr := nxt }) idx) :
    SlotInAll s idx := by
  have hslotEq : ∀ i : Nat,
      (Slab.slot { s.getSlab b ptr with next_slab_ptr := nxt } i)
        = (s.getSlab b ptr).slot i := fun i => rfl
  have hmemSrc := getSlab_mem s b ptr hsz hv
  by_cases hph : ptr = HEAD_SLAB_PTR
  · rw [SlabHashContext.setSlab, if_pos hph] at hS
    rcases hS with ⟨sl, hmem, i, hi, heq⟩ | ⟨sl, hmem, i, hi, heq⟩
    · rcases listMem_of_mem_set _ _ _ _ hmem with hmem2 | hmem2
      · exact Or.inl ⟨sl, hmem2, i, hi, heq⟩
      · subst hmem2
        rw [hslotEq i] at heq
        rcases hmemSrc with hm | hm
        · exact Or.inl ⟨s.getSlab b ptr, hm, i, hi, heq⟩
        · exact Or.inr ⟨s.getSlab b ptr, hm, i, hi, heq⟩
    · rcases List.mem_append.mp hmem with hmem2 | hmem2
      · exact Or.inr ⟨sl, hmem2, i, hi, heq⟩
      · have : sl = emptySlab := List.mem_singleton.mp hmem2
        subst this
        rw [emptySlab_slot i] at heq
        exact absurd heq.symm hidxE
  · rw [SlabHashContext.setSlab, if_neg hph] at hS
    rcases hS with ⟨sl, hmem, i, hi, heq⟩ | ⟨sl, hmem, i, hi, heq⟩
    · exact Or.inl ⟨sl, hmem, i, hi, heq⟩
    · rcases listMem_of_mem_set _ _ _ _ hmem with hmem2 | hmem2
      · rcases List.mem_append.mp hmem2 with hmem3 | hmem3
        · exact Or.inr ⟨sl, hmem3, i, hi, heq⟩
        · have : sl = emptySlab := List.mem_singleton.mp hmem3
          subst this
          rw [emptySlab_slot i] at heq
          exact absurd heq.symm hidxE
      · subst hmem2
        rw [hslotEq i] at heq
        rcases hmemSrc with hm | hm
        · exact Or.inl ⟨s.getSlab b ptr, hm, i, hi, heq⟩
        · exact Or.inr ⟨s.getSlab b ptr, hm, i, hi, heq⟩

/-- The addressability invariant holds, with any fuel, for the state after
branch 3.2 linked a fresh slab, walking from the same slab again. -/
theorem walkInvB_link (s : SlabHashContext) (b ptr : Nat)
    (hv : validPtr s b ptr) (hl : (s.getSlab b ptr).pair_ptrs.length = 31)
    (hbig : s.slabs.length + 1 < HEAD_SLAB_PTR) :
    ∀ m, walkInvB
      (SlabHashContext.setSlab { s with slabs := s.slabs ++ [emptySlab] } b ptr
        { s.getSlab b ptr with next_slab_ptr := s.slabs.length }) b m ptr = true := by
  intro m
  have hgetPtr : (SlabHashContext.setSlab { s with slabs := s.slabs ++ [emptySlab] } b ptr
      { s.getSlab b ptr with next_slab_ptr := s.slabs.length }).getSlab b ptr
      = { s.getSlab b ptr with next_slab_ptr := s.slabs.length } := by
    by_cases hph : ptr = HEAD_SLAB_PTR
    · subst hph
      rcases hv with ⟨_, hb⟩ | hlt
      · exact getSlab_setSlab_head_same _ _ _ hb
      · exact absurd rfl (by omega : HEAD_SLAB_PTR ≠ HEAD_SLAB_PTR)
    · rcases hv with ⟨hh, _⟩ | hlt
      · exact absurd hh hph
      · exact getSlab_setSlab_heap_same _ _ _ _ _ hph (by simp; omega)
  have hvalid2 : validPtr
      (SlabHashContext.setSlab { s with slabs := s.slabs ++ [emptySlab] } b ptr
        { s.getSlab b ptr with next_slab_ptr := s.slabs.length }) b ptr := by
    unfold validPtr at hv ⊢
    rw [setSlab_heads_length, setSlab_slabs_length]
    rcases hv with ⟨hh, hb⟩ | hlt
    · exact Or.inl ⟨hh, by simp; omega⟩
    · exact Or.inr (by simp; omega)
  have hfreshNe : s.slabs.length ≠ EMPTY_SLAB_PTR := by
    have : HEAD_SLAB_PTR < EMPTY_SLAB_PTR := by decide
    omega
  have hfreshNeH : s.slabs.length ≠ HEAD_SLAB_PTR := by omega
  have hgetFresh : (SlabHashContext.setSlab { s with slabs := s.slabs ++ [emptySlab] } b ptr
      { s.getSlab b ptr with next_slab_ptr := s.slabs.length }).getSlab b s.slabs.length
      = emptySlab := by
    by_cases hph : ptr = HEAD_SLAB_PTR
    · rw [SlabHashContext.setSlab, if_pos hph, SlabHashContext.getSlab, if_neg hfreshNeH]
      show (s.slabs ++ [emptySlab]).getD s.slabs.length emptySlab = emptySlab
      rw [List.getD_append_right _ _ _ _ (Nat.le_refl _), Nat.sub_self]
      rfl
    · have hptrlt : ptr < s.slabs.length := by
        rcases hv with ⟨hh, _⟩ | hlt
        · exact absurd hh hph
        · exact hlt
      rw [SlabHashContext.setSlab, if_neg hph, SlabHashContext.getSlab, if_neg hfreshNeH]
      show ((s.slabs ++ [emptySlab]).set ptr _).getD s.slabs.length emptySlab = emptySlab
      rw [listGetD_set_ne _ _ _ _ _ (by omega)]
      rw [List.getD_append_right _ _ _ _ (Nat.le_refl _), Nat.sub_self]
      rfl
  have hvalidFresh : validPtr
      (SlabHashContext.setSlab { s with slabs := s.slabs ++ [emptySlab] } b ptr
        { s.getSlab b ptr with next_slab_ptr := s.slabs.length }) b s.slabs.length := by
    unfold validPtr
    rw [setSlab_slabs_length]
    exact Or.inr (by simp)
  cases m with
  | zero => rfl
  | succ g =>
    rw [walkInvB, hgetPtr]
    rw [Bool.and_assoc, Bool.and_eq_true, Bool.and_eq_true]
    refine ⟨decide_eq_true hvalid2, decide_eq_true hl, ?_⟩
    show (if s.slabs.length = EMPTY_SLAB_PTR then true else _) = true
    rw [if_neg hfreshNe]
    cases g with
    | zero => rfl
    | succ g2 =>
      rw [walkInvB, hgetFresh]
      rw [Bool.and_assoc, Bool.and_eq_true, Bool.and_eq_true]
      refine ⟨decide_eq_true hvalidFresh, decide_eq_true (by decide), ?_⟩
      have hE : emptySlab.next_slab_ptr = EMPTY_SLAB_PTR := rfl
      rw [if_pos hE]

/-- Outcome of the Insert loop for the pre-allocated pair record: along the
whole run its record keeps the written (key, value); it ends either published
into a slot (success) or freed on the duplicate abort — never both. -/
theorem insertLoop_prealloc_outcome (k v b idx : Nat) (rest : List Nat) :
    ∀ f s ptr s' it r,
      insertLoop s k v b idx f ptr = some (s', it, r) →
      s.pairs.free = rest →
      s.pairs.data.getD idx (0, 0) = (k, v) →
      ¬ SlotInAll s idx →
      idx ≠ EMPTY_PAIR_PTR →
      walkInvB s b f ptr = true →
      s.slabs.length + f < HEAD_SLAB_PTR →
      s'.pairs.data.getD idx (0, 0) = (k, v) ∧
      ((r = true ∧ it = idx ∧ s'.pairs.free = rest ∧ SlotInAll s' idx)
       ∨ (r = false ∧ it = NULL_ITERATOR ∧ s'.pairs.free = idx :: rest
          ∧ ¬ SlotInAll s' idx)) := by
  intro f
  induction f with
  | zero => intro s ptr s' it r h; exact Option.noConfusion h
  | succ m ih =>
    intro s ptr s' it r h hfree hdata hunref hidxE hwalk hbound
    have hwalk' := hwalk
    rw [walkInvB, Bool.and_assoc, Bool.and_eq_true, Bool.and_eq_true] at hwalk'
    obtain ⟨hvdec, hldec, hwrest⟩ := hwalk'
    have hv : validPtr s b ptr := of_decide_eq_true hvdec
    have hl : (s.getSlab b ptr).pair_ptrs.length = 31 := of_decide_eq_true hldec
    rw [insertLoop] at h
    cases hk : WarpFindKey s.pairs k (s.getSlab b ptr) with
    | some lane =>
      simp only [hk, Option.some_inj, Prod.mk.injEq] at h
      obtain ⟨h1, h2, h3⟩ := h
      subst h1; subst h2; subst h3
      refine ⟨hdata, Or.inr ⟨rfl, rfl, ?_, hunref⟩⟩
      show idx :: s.pairs.free = idx :: rest
      rw [hfree]
    | none =>
      simp only [hk] at h
      cases he : WarpFindEmpty (s.getSlab b ptr) with
      | some lane_empty =>
        simp only [he, Option.some_inj, Prod.mk.injEq] at h
        obtain ⟨h1, h2, h3⟩ := h
        subst h1; subst h2; subst h3
        rw [WarpFindEmpty] at he
        have hlane : lane_empty < 31 := (firstLane_eq_some _ _ _ he).1
        have hslot : (Slab.slot { s.getSlab b ptr with
            pair_ptrs := (s.getSlab b ptr).pair_ptrs.set lane_empty idx }) lane_empty
            = idx := by
          show ((s.getSlab b ptr).pair_ptrs.set lane_empty idx).getD lane_empty
            EMPTY_PAIR_PTR = idx
          exact listGetD_set_self _ _ _ _ (by rw [hl]; exact hlane)
        constructor
        · rw [setSlab_pairs]; exact hdata
        · refine Or.inl ⟨rfl, rfl, ?_, ?_⟩
          · rw [setSlab_pairs]; exact hfree
          · rcases hv with ⟨hhd, hb⟩ | hlt
            · rw [SlabHashContext.setSlab, if_pos hhd]
              exact Or.inl ⟨_, listMem_set _ _ _ hb, lane_empty,
                List.mem_range.mpr hlane, hslot⟩
            · have hph : ptr ≠ HEAD_SLAB_PTR := by omega
              rw [SlabHashContext.setSlab, if_neg hph]
              exact Or.inr ⟨_, listMem_set _ _ _ hlt, lane_empty,
                List.mem_range.mpr hlane, hslot⟩
      | none =>
        simp only [he] at h
        by_cases hn : (s.getSlab b ptr).next_slab_ptr = EMPTY_SLAB_PTR
        · rw [if_neg (not_not_intro hn)] at h
          have hsz : s.slabs.length ≤ HEAD_SLAB_PTR := by omega
          have hbig : s.slabs.length + 1 < HEAD_SLAB_PTR := by omega
          refine ih _ _ _ _ _ h ?_ ?_ ?_ hidxE ?_ ?_
          · rw [setSlab_pairs]; exact hfree
          · rw [setSlab_pairs]; exact hdata
          · intro hS
            exact hunref (SlotInAll_linkStep s b ptr s.slabs.length idx hsz hv hidxE hS)
          · exact walkInvB_link s b ptr hv hl hbig m
          · rw [setSlab_slabs_length]
            show (s.slabs ++ [emptySlab]).length + m < HEAD_SLAB_PTR
            rw [List.length_append]
            simp only [List.length_cons, List.length_nil]
            omega
        · rw [if_pos hn] at h
          rw [if_neg hn] at hwrest
          exact ih _ _ _ _ _ h hfree hdata hunref hidxE hwrest (by omega)

/-- **C5.** Every lane entering Insert active allocates its pair record before
the warp loop and writes (key, value) into it; along the run the record keeps
that content; the pre-allocated record is freed exactly on the duplicate-abort
branch, so a lane that ends inactive has either published its record into a
slot of the table (success, iterator = the record) or freed it (abort). -/
theorem c5_insert_preallocation_discipline
    (s s' : SlabHashContext) (hash : Nat → Nat) (k v idx fuel it : Nat)
    (rest : List Nat) (r : Bool)
    (hwf : WF s)
    (hfree : s.pairs.free = idx :: rest)
    (hrun : s.Insert hash k v fuel = some (s', it, r))
    (hcap : s.slabs.length + fuel < HEAD_SLAB_PTR) :
    s'.pairs.extract idx = (k, v)
    ∧ ((r = true ∧ it = idx ∧ s'.pairs.free = rest ∧ SlotInAll s' idx)
       ∨ (r = false ∧ it = NULL_ITERATOR ∧ s'.pairs.free = idx :: rest
          ∧ ¬ SlotInAll s' idx)) := by
  obtain ⟨hnb, hheads, hslabs, hdatalen, hnodup, hfreelt, hchains, hfreeunref⟩ := hwf
  have hidxmem : idx ∈ s.pairs.free := by rw [hfree]; exact List.mem_cons_self _ _
  have hidxlt : idx < s.pairs.data.length := hfreelt idx hidxmem
  have hidxE : idx ≠ EMPTY_PAIR_PTR := by omega
  have hAlloc : s.pairs.Allocate = some (idx, { s.pairs with free := rest }) := by
    rw [MemoryAllocContext.Allocate, hfree]
  rw [SlabHashContext.Insert, hAlloc] at hrun
  have hb : s.ComputeBucket hash k < s.num_buckets := Nat.mod_lt _ hnb
  obtain ⟨hend, hnodupc, hcond⟩ := hchains (s.ComputeBucket hash k) hb
  have hwalkS : walkInvB s (s.ComputeBucket hash k) fuel HEAD_SLAB_PTR = true :=
    walkInvB_of_chain s _ fuel _ _ hend hcond
  have happ := insertLoop_prealloc_outcome k v (s.ComputeBucket hash k) idx rest fuel
    { s with pairs := MemoryAllocContext.write { s.pairs with free := rest } idx (k, v) }
    HEAD_SLAB_PTR s' it r hrun rfl
    (by show (s.pairs.data.set idx (k, v)).getD idx (0, 0) = (k, v)
        exact listGetD_set_self _ _ _ _ hidxlt)
    (hfreeunref idx hidxmem)
    hidxE
    ((walkInvB_congr
        { s with pairs := MemoryAllocContext.write { s.pairs with free := rest } idx (k, v) }
        s rfl rfl (s.ComputeBucket hash k) fuel HEAD_SLAB_PTR).trans hwalkS)
    hcap
  exact happ

/-- Witness for C5 at a concrete insert. -/
theorem c5_insert_preallocation_discipline_witness :
    c10sA.pairs.extract 0 = (5, 7) ∧ SlotInAll c10sA 0 := by
  have h := c5_insert_preallocation_discipline exampleTable c10sA (fun x => x)
    5 7 0 3 0 [1] true (by decide) (by decide) (by decide) (by decide)
  rcases h.2 with ⟨_, _, _, hpub⟩ | ⟨hc, _⟩
  · exact ⟨h.1, hpub⟩
  · exact Bool.noConfusion hc

/-! ## Claim C3: Search characterization and the bulk kernel writeback -/

/-- Declarative lookup over the chain's pointer list: the first visited slab
with a matching slot yields that slot's pair index. -/
def chainLookup (s : SlabHashContext) (bucket key f ptr : Nat) : Option Nat :=
  (chainList s bucket f ptr).findSome?
    (fun p => (WarpFindKey s.pairs key (s.getSlab bucket p)).map
      (fun lane => (s.getSlab bucket p).slot lane))

/-- The per-query writeback of `SearchKernel` (lines 519-535): `founds[tid]`
is the found flag as a byte, `values[tid]` the record's value on success and
`_Value(0)` otherwise. -/
def SearchKernelWriteback (s : SlabHashContext) (result : Nat × Bool) : Nat × Nat :=
  (if result.2 then 1 else 0,
   if result.2 then (s.pairs.extract result.1).2 else 0)

theorem searchLoop_eq_chainLookup (s : SlabHashContext) (k b : Nat) :
    ∀ f ptr, walkEnds s b f ptr = true →
      searchLoop s k b f ptr =
        some (match chainLookup s b k f ptr with
              | some pv => (pv, true)
              | none => (NULL_ITERATOR, false)) := by
  intro f
  induction f with
  | zero => intro ptr h; exact Bool.noConfusion h
  | succ m ih =>
    intro ptr hend
    rw [walkEnds] at hend
    cases hk : WarpFindKey s.pairs k (s.getSlab b ptr) with
    | some lane =>
      rw [searchLoop]
      simp only [hk]
      rw [chainLookup, chainList, List.findSome?_cons]
      simp only [hk]
      rfl
    | none =>
      rw [searchLoop]
      simp only [hk]
      rw [chainLookup, chainList, List.findSome?_cons]
      simp only [hk]
      by_cases hn : (s.getSlab b ptr).next_slab_ptr = EMPTY_SLAB_PTR
      · rw [if_pos hn, if_pos hn]
        rfl
      · rw [if_neg hn, if_neg hn]
        rw [if_neg hn] at hend
        rw [ih _ hend]
        rfl

/-- **C3.** Search walks the bucket's chain; when some pair slot (lanes 0..30)
holds a non-empty pair index whose record's key equals the query, the first
such slab's lowest such slot supplies the result `(pair_index, true)`; a chain
ending in `EMPTY_SLAB_PTR` without a match yields `(NULL_ITERATOR, false)`;
the bulk kernel then writes `found = 1` with the stored value on success and
`found = 0` with the default value 0 otherwise. -/
theorem c3_search_chain_characterization
    (s : SlabHashContext) (hash : Nat → Nat) (k f : Nat)
    (hterm : walkEnds s (s.ComputeBucket hash k) f HEAD_SLAB_PTR = true) :
    s.Search hash k f =
      some (match chainLookup s (s.ComputeBucket hash k) k f HEAD_SLAB_PTR with
            | some pv => (pv, true)
            | none => (NULL_ITERATOR, false))
    ∧ (∀ pv, chainLookup s (s.ComputeBucket hash k) k f HEAD_SLAB_PTR = some pv →
        SearchKernelWriteback s (pv, true) = (1, (s.pairs.extract pv).2))
    ∧ (chainLookup s (s.ComputeBucket hash k) k f HEAD_SLAB_PTR = none →
        SearchKernelWriteback s (NULL_ITERATOR, false) = (0, 0))
    ∧ (∀ (pairs : MemoryAllocContext) (sl : Slab) (lane : Nat),
        WarpFindKey pairs k sl = some lane →
        lane < 31 ∧ sl.slot lane ≠ EMPTY_PAIR_PTR
        ∧ (pairs.extract (sl.slot lane)).1 = k
        ∧ ∀ j < lane,
            ¬(sl.slot j ≠ EMPTY_PAIR_PTR ∧ (pairs.extract (sl.slot j)).1 = k)) := by
  refine ⟨searchLoop_eq_chainLookup s k _ f HEAD_SLAB_PTR hterm, ?_, ?_, ?_⟩
  · intro pv _; rfl
  · intro _; rfl
  · intro pairs sl lane hfl
    rw [WarpFindKey] at hfl
    obtain ⟨hlt, hp, hmin⟩ := firstLane_eq_some _ _ _ hfl
    rw [Bool.and_eq_true, decide_eq_true_eq, decide_eq_true_eq] at hp
    refine ⟨hlt, hp.1, hp.2, ?_⟩
    intro j hj hcontra
    have htrue : (decide (sl.slot j ≠ EMPTY_PAIR_PTR) &&
        decide ((pairs.extract (sl.slot j)).1 = k)) = true := by
      rw [decide_eq_true hcontra.1, decide_eq_true hcontra.2]
      rfl
    rw [hmin j hj] at htrue
    exact Bool.noConfusion htrue

/-- Witness for C3 on a concrete table with one stored pair. -/
theorem c3_search_chain_characterization_witness :
    c10sA.Search (fun x => x) 5 1 = some (0, true)
    ∧ SearchKernelWriteback c10sA (0, true) = (1, 7) := by
  have h := c3_search_chain_characterization c10sA (fun x => x) 5 1 (by decide)
  constructor
  · have h1 := h.1
    rw [show chainLookup c10sA (c10sA.ComputeBucket (fun x => x) 5) 5 1 HEAD_SLAB_PTR
        = some 0 by decide] at h1
    exact h1
  · exact h.2.1 0 (by decide)

/-! ## Claim C8: ComputeLoadFactor -/

/-- `__popc`: the number of set bits of a machine word. -/
def popc (n : Nat) : Nat :=
  if h : n = 0 then 0 else n % 2 + popc (n / 2)
termination_by n
decreasing_by exact Nat.div_lt_self (Nat.pos_of_ne_zero h) (by decide)

/-- The number of lanes in `0 .. n-1` whose predicate holds. -/
def laneCount (p : Nat → Bool) : Nat → Nat
  | 0 => 0
  | n + 1 => (if p 0 then 1 else 0) + laneCount (fun i => p (i + 1)) n

theorem laneCount_eq_zero : ∀ (n : Nat) (p : Nat → Bool),
    (∀ j < n, p j = false) → laneCount p n = 0 := by
  intro n
  induction n with
  | zero => intro p _; rfl
  | succ m ih =>
    intro p hall
    rw [laneCount, hall 0 (Nat.succ_pos m), if_neg Bool.false_ne_true]
    rw [ih (fun i => p (i + 1)) (fun j hj => hall (j + 1) (by omega))]

/-- `__popc` of a ballot counts the lanes whose predicate holds. -/
theorem popc_ballot : ∀ (n : Nat) (p : Nat → Bool),
    popc (ballot p n) = laneCount p n := by
  intro n
  induction n with
  | zero =>
    intro p
    rw [ballot, popc]
    rfl
  | succ m ih =>
    intro p
    rw [ballot, laneCount]
    cases hp : p 0 with
    | true =>
      have e1 : (if (true : Bool) = true then (1 : Nat) else 0) = 1 := rfl
      rw [e1]
      have h1 : (1 + 2 * ballot (fun i => p (i + 1)) m) % 2 = 1 := by omega
      have h2 : (1 + 2 * ballot (fun i => p (i + 1)) m) / 2
          = ballot (fun i => p (i + 1)) m := by omega
      rw [popc, dif_neg (by omega : ¬(1 + 2 * ballot (fun i => p (i + 1)) m = 0))]
      rw [h1, h2, ih (fun i => p (i + 1))]
    | false =>
      have e0 : (if (false : Bool) = true then (1 : Nat) else 0) = 0 := rfl
      rw [e0]
      by_cases hz : ballot (fun i => p (i + 1)) m = 0
      · rw [hz]
        have hlz : laneCount (fun i => p (i + 1)) m = 0 :=
          laneCount_eq_zero m _ ((ballot_eq_zero_iff _ m).mp hz)
        rw [hlz]
        rw [popc]
        rfl
      · have h1 : (0 + 2 * ballot (fun i => p (i + 1)) m) % 2 = 0 := by omega
        have h2 : (0 + 2 * ballot (fun i => p (i + 1)) m) / 2
            = ballot (fun i => p (i + 1)) m := by omega
        rw [popc, dif_neg (by omega : ¬(0 + 2 * ballot (fun i => p (i + 1)) m = 0))]
        rw [h1, h2, ih (fun i => p (i + 1))]

/-- The per-lane count agrees with `List.countP` over the lane indices. -/
theorem laneCount_eq_countP : ∀ (n : Nat) (p : Nat → Bool),
    laneCount p n = (List.range n).countP p := by
  intro n
  induction n with
  | zero => intro p; rfl
  | succ m ih =>
    intro p
    rw [laneCount, List.range_succ_eq_map, List.countP_cons, List.countP_map]
    rw [ih (fun i => p (i + 1)), Nat.add_comm]
    rfl

/-- `bucket_count_kernel` (lines 597-635): one warp per bucket walks the chain
and sums `__popc(__ballot_sync(PAIR_PTR_LANES_MASK, word != EMPTY_PAIR_PTR))`
per slab. -/
def bucketCountLoop (s : SlabHashContext) (bucket : Nat) : Nat → Nat → Nat
  | 0, _ => 0
  | f + 1, ptr =>
    popc (ballot (fun i => decide ((s.getSlab bucket ptr).slot i ≠ EMPTY_PAIR_PTR)) 31)
    + (if (s.getSlab bucket ptr).next_slab_ptr = EMPTY_SLAB_PTR then 0
       else bucketCountLoop s bucket f (s.getSlab bucket ptr).next_slab_ptr)

theorem bucketCountLoop_eq_sum (s : SlabHashContext) (b : Nat) :
    ∀ f ptr, walkEnds s b f ptr = true →
      bucketCountLoop s b f ptr =
        ((chainList s b f ptr).map (fun p =>
          laneCount (fun i => decide ((s.getSlab b p).slot i ≠ EMPTY_PAIR_PTR)) 31)).sum := by
  intro f
  induction f with
  | zero => intro ptr h; exact Bool.noConfusion h
  | succ m ih =>
    intro ptr hend
    rw [walkEnds] at hend
    rw [bucketCountLoop, chainList, List.map_cons, List.sum_cons]
    rw [popc_ballot 31]
    by_cases hn : (s.getSlab b ptr).next_slab_ptr = EMPTY_SLAB_PTR
    · rw [if_pos hn, if_pos hn]
      rfl
    · rw [if_neg hn, if_neg hn]
      rw [if_neg hn] at hend
      rw [ih _ hend]

/-- `compute_stats_allocators` (lines 642-661) reduced per super block: the
popcounts of all its bitmaps summed.  Modelled from the spec: the bitmaps
live in the absent `slab_alloc.h`; per the spec, the count of set bits counts
the currently-allocated non-head slabs. -/
def superBlockSlabCount (bitmaps : List Nat) : Nat := (bitmaps.map popc).sum

/-- `SlabHash::ComputeLoadFactor` (lines 726-788): the number of stored
elements (bucket counts summed) times the pair size, divided by the number of
allocated memory units (the bucket heads plus every super block's bitmap
popcounts) times `WARP_WIDTH * sizeof(uint32_t)` bytes; the `double` division
is modelled as the exact rational. -/
def ComputeLoadFactor (s : SlabHashContext) (super_blocks : List (List Nat))
    (sizeKey sizeValue fuel : Nat) : ℚ :=
  let total_elements_stored :=
    ((List.range s.num_buckets).map (fun b => bucketCountLoop s b fuel HEAD_SLAB_PTR)).sum
  let total_mem_units :=
    s.num_buckets + (super_blocks.map superBlockSlabCount).sum
  ((total_elements_stored * (sizeKey + sizeValue) : ℕ) : ℚ) /
    ((total_mem_units * (WARP_WIDTH * 4) : ℕ) : ℚ)

/-- **C8.** ComputeLoadFactor returns (stored elements × (sizeof(key) +
sizeof(value))) / (total slab count × 32 × 4 bytes), where the stored elements
are, per bucket, the number of non-empty pair slots (lanes 0..30) along the
bucket's chain, and the total slab count is `num_buckets` head slabs plus the
popcount of set bits of every super block bitmap. -/
theorem c8_compute_load_factor_formula
    (s : SlabHashContext) (super_blocks : List (List Nat)) (sizeKey sizeValue fuel : Nat)
    (hterm : ∀ b < s.num_buckets, walkEnds s b fuel HEAD_SLAB_PTR = true) :
    ComputeLoadFactor s super_blocks sizeKey sizeValue fuel =
      ((((List.range s.num_buckets).map (fun b =>
          ((chainList s b fuel HEAD_SLAB_PTR).map (fun p =>
            laneCount (fun i =>
              decide ((s.getSlab b p).slot i ≠ EMPTY_PAIR_PTR)) 31)).sum)).sum
          * (sizeKey + sizeValue) : ℕ) : ℚ) /
      (((s.num_buckets + (super_blocks.map (fun sb => (sb.map popc).sum)).sum)
          * (32 * 4) : ℕ) : ℚ)
    ∧ (∀ b < s.num_buckets, bucketCountLoop s b fuel HEAD_SLAB_PTR =
        ((chainList s b fuel HEAD_SLAB_PTR).map (fun p =>
          laneCount (fun i => decide ((s.getSlab b p).slot i ≠ EMPTY_PAIR_PTR)) 31)).sum)
    ∧ (∀ (n : Nat) (q : Nat → Bool), laneCount q n = (List.range n).countP q) := by
  refine ⟨?_, ?_, laneCount_eq_countP⟩
  · rw [ComputeLoadFactor]
    have hmap : (List.range s.num_buckets).map (fun b => bucketCountLoop s b fuel HEAD_SLAB_PTR)
        = (List.range s.num_buckets).map (fun b =>
            ((chainList s b fuel HEAD_SLAB_PTR).map (fun p =>
              laneCount (fun i =>
                decide ((s.getSlab b p).slot i ≠ EMPTY_PAIR_PTR)) 31)).sum) := by
      apply List.map_congr_left
      intro b hb
      exact bucketCountLoop_eq_sum s b fuel HEAD_SLAB_PTR
        (hterm b (List.mem_range.mp hb))
    rw [hmap]
    rfl
  · intro b hb
    exact bucketCountLoop_eq_sum s b fuel HEAD_SLAB_PTR (hterm b hb)

/-- Witness for C8 on a concrete one-bucket table with one stored pair. -/
theorem c8_compute_load_factor_formula_witness :
    bucketCountLoop c10sA 0 1 HEAD_SLAB_PTR = 1 := by
  have h := c8_compute_load_factor_formula c10sA [[3]] 4 4 1 (by decide)
  have h2 := h.2.1 0 (by decide)
  rw [h2]
  decide

/-! ## Frame and congruence lemmas for the Insert/Remove/Search round trips -/

theorem firstLane_congr : ∀ (n : Nat) (p q : Nat → Bool),
    (∀ j < n, p j = q j) → firstLane p n = firstLane q n := by
  intro n
  induction n with
  | zero => intro p q _; rfl
  | succ m ih =>
    intro p q h
    rw [firstLane, firstLane, h 0 (Nat.succ_pos m)]
    rw [ih (fun i => p (i + 1)) (fun i => q (i + 1)) (fun j hj => h (j + 1) (by omega))]

theorem firstLane_eq_some_of : ∀ (n l : Nat) (p : Nat → Bool), l < n → p l = true →
    (∀ j < l, p j = false) → firstLane p n = some l := by
  intro n
  induction n with
  | zero => intro l p hl; omega
  | succ m ih =>
    intro l p hl hp hmin
    cases l with
    | zero => rw [firstLane, if_pos hp]
    | succ l1 =>
      rw [firstLane, if_neg (by rw [hmin 0 (Nat.succ_pos l1)]; exact Bool.false_ne_true)]
      rw [ih l1 (fun i => p (i + 1)) (by omega) hp (fun j hj => hmin (j + 1) (by omega))]
      rfl

theorem WarpFindKey_congr (pairs1 pairs2 : MemoryAllocContext) (k : Nat) (sl : Slab)
    (h : ∀ i < 31, sl.slot i ≠ EMPTY_PAIR_PTR →
      pairs1.extract (sl.slot i) = pairs2.extract (sl.slot i)) :
    WarpFindKey pairs1 k sl = WarpFindKey pairs2 k sl := by
  rw [WarpFindKey, WarpFindKey]
  apply firstLane_congr
  intro j hj
  by_cases hE : sl.slot j = EMPTY_PAIR_PTR
  · rw [decide_eq_false (not_not_intro hE), Bool.false_and, Bool.false_and]
  · rw [h j hj hE]

theorem WarpFindKey_congr_data (p1 p2 : MemoryAllocContext) (hd : p1.data = p2.data)
    (k : Nat) (sl : Slab) : WarpFindKey p1 k sl = WarpFindKey p2 k sl :=
  WarpFindKey_congr p1 p2 k sl (fun i _ _ => by
    unfold MemoryAllocContext.extract
    rw [hd])

theorem WarpFindKey_pair_ptrs (pairs : MemoryAllocContext) (k : Nat) (sl1 sl2 : Slab)
    (h : sl1.pair_ptrs = sl2.pair_ptrs) :
    WarpFindKey pairs k sl1 = WarpFindKey pairs k sl2 := by
  rw [WarpFindKey, WarpFindKey]
  apply firstLane_congr
  intro j _
  unfold Slab.slot
  rw [h]

theorem WarpFindEmpty_pair_ptrs (sl1 sl2 : Slab) (h : sl1.pair_ptrs = sl2.pair_ptrs) :
    WarpFindEmpty sl1 = WarpFindEmpty sl2 := by
  rw [WarpFindEmpty, WarpFindEmpty]
  apply firstLane_congr
  intro j _
  unfold Slab.slot
  rw [h]

theorem getSlab_setSlab_same (s : SlabHashContext) (b ptr : Nat) (sl : Slab)
    (hsz : s.slabs.length ≤ HEAD_SLAB_PTR) (hv : validPtr s b ptr) :
    (s.setSlab b ptr sl).getSlab b ptr = sl := by
  rcases hv with ⟨hhd, hb⟩ | hlt
  · subst hhd
    exact getSlab_setSlab_head_same s b sl hb
  · exact getSlab_setSlab_heap_same s b b ptr sl (by omega) hlt

theorem chainList_frame (s sF : SlabHashContext) (b : Nat) :
    ∀ f ptr, (∀ p ∈ chainList s b f ptr, sF.getSlab b p = s.getSlab b p) →
      chainList sF b f ptr = chainList s b f ptr := by
  intro f
  induction f with
  | zero => intro ptr _; rfl
  | succ m ih =>
    intro ptr hget
    have hmem : ptr ∈ chainList s b (m + 1) ptr := by
      rw [chainList]; exact List.mem_cons_self _ _
    rw [chainList, chainList, hget ptr hmem]
    by_cases hn : (s.getSlab b ptr).next_slab_ptr = EMPTY_SLAB_PTR
    · rw [if_pos hn, if_pos hn]
    · rw [if_neg hn, if_neg hn]
      have htail : ∀ p ∈ chainList s b m (s.getSlab b ptr).next_slab_ptr,
          p ∈ chainList s b (m + 1) ptr := by
        intro p hp
        rw [chainList, if_neg hn]
        exact List.mem_cons_of_mem _ hp
      rw [ih _ (fun p hp => hget p (htail p hp))]

theorem walkEnds_frame (s sF : SlabHashContext) (b : Nat) :
    ∀ f ptr, (∀ p ∈ chainList s b f ptr, sF.getSlab b p = s.getSlab b p) →
      walkEnds sF b f ptr = walkEnds s b f ptr := by
  intro f
  induction f with
  | zero => intro ptr _; rfl
  | succ m ih =>
    intro ptr hget
    have hmem : ptr ∈ chainList s b (m + 1) ptr := by
      rw [chainList]; exact List.mem_cons_self _ _
    rw [walkEnds, walkEnds, hget ptr hmem]
    by_cases hn : (s.getSlab b ptr).next_slab_ptr = EMPTY_SLAB_PTR
    · rw [if_pos hn, if_pos hn]
    · rw [if_neg hn, if_neg hn]
      have htail : ∀ p ∈ chainList s b m (s.getSlab b ptr).next_slab_ptr,
          p ∈ chainList s b (m + 1) ptr := by
        intro p hp
        rw [chainList, if_neg hn]
        exact List.mem_cons_of_mem _ hp
      rw [ih _ (fun p hp => hget p (htail p hp))]

/-- Search is unaffected by modifications outside the walked chain and outside
the records its slots reference. -/
theorem searchLoop_frame (s sF : SlabHashContext) (k b : Nat) :
    ∀ f ptr,
      (∀ p ∈ chainList s b f ptr, sF.getSlab b p = s.getSlab b p) →
      (∀ p ∈ chainList s b f ptr, ∀ i < 31,
        (s.getSlab b p).slot i ≠ EMPTY_PAIR_PTR →
        sF.pairs.extract ((s.getSlab b p).slot i)
          = s.pairs.extract ((s.getSlab b p).slot i)) →
      searchLoop sF k b f ptr = searchLoop s k b f ptr := by
  intro f
  induction f with
  | zero => intro ptr _ _; rfl
  | succ m ih =>
    intro ptr hget hext
    have hmem : ptr ∈ chainList s b (m + 1) ptr := by
      rw [chainList]; exact List.mem_cons_self _ _
    have hWFK : WarpFindKey sF.pairs k (sF.getSlab b ptr)
        = WarpFindKey s.pairs k (s.getSlab b ptr) := by
      rw [hget ptr hmem]
      exact WarpFindKey_congr _ _ k _ (fun i hi hE => hext ptr hmem i hi hE)
    rw [searchLoop, searchLoop, hWFK, hget ptr hmem]
    cases hk : WarpFindKey s.pairs k (s.getSlab b ptr) with
    | some lane => rfl
    | none =>
      by_cases hn : (s.getSlab b ptr).next_slab_ptr = EMPTY_SLAB_PTR
      · rw [if_pos hn, if_pos hn]
      · rw [if_neg hn, if_neg hn]
        have htail : ∀ p ∈ chainList s b m (s.getSlab b ptr).next_slab_ptr,
            p ∈ chainList s b (m + 1) ptr := by
          intro p hp
          rw [chainList, if_neg hn]
          exact List.mem_cons_of_mem _ hp
        exact ih _ (fun p hp => hget p (htail p hp))
          (fun p hp i hi hE => hext p (htail p hp) i hi hE)

theorem searchLoop_notfound_walkEnds (s : SlabHashContext) (k b : Nat) :
    ∀ f ptr, searchLoop s k b f ptr = some (NULL_ITERATOR, false) →
      walkEnds s b f ptr = true := by
  intro f
  induction f with
  | zero => intro ptr h; exact Option.noConfusion h
  | succ m ih =>
    intro ptr h
    rw [searchLoop] at h
    rw [walkEnds]
    cases hk : WarpFindKey s.pairs k (s.getSlab b ptr) with
    | some lane =>
      simp only [hk, Option.some_inj, Prod.mk.injEq] at h
      exact absurd h.2 (by decide)
    | none =>
      simp only [hk] at h
      by_cases hn : (s.getSlab b ptr).next_slab_ptr = EMPTY_SLAB_PTR
      · rw [if_pos hn]
      · rw [if_neg hn] at h
        rw [if_neg hn]
        exact ih _ h

theorem removeLoop_not_found (s : SlabHashContext) (k b : Nat) :
    ∀ f ptr, searchLoop s k b f ptr = some (NULL_ITERATOR, false) →
      removeLoop s k b f ptr = some (s, false) := by
  intro f
  induction f with
  | zero => intro ptr h; exact Option.noConfusion h
  | succ m ih =>
    intro ptr h
    rw [searchLoop] at h
    rw [removeLoop]
    cases hk : WarpFindKey s.pairs k (s.getSlab b ptr) with
    | some lane =>
      simp only [hk, Option.some_inj, Prod.mk.injEq] at h
      exact absurd h.2 (by decide)
    | none =>
      simp only [hk]
      simp only [hk] at h
      by_cases hn : (s.getSlab b ptr).next_slab_ptr = EMPTY_SLAB_PTR
      · rw [if_pos hn]
      · rw [if_neg hn] at h
        rw [if_neg hn]
        exact ih _ h

theorem chainList_prefix (s : SlabHashContext) (b : Nat) :
    ∀ g g2 ptr, g ≤ g2 →
      ∃ t, chainList s b g2 ptr = chainList s b g ptr ++ t := by
  intro g
  induction g with
  | zero => intro g2 ptr _; exact ⟨chainList s b g2 ptr, rfl⟩
  | succ m ih =>
    intro g2 ptr hle
    cases g2 with
    | zero => omega
    | succ m2 =>
      rw [chainList, chainList]
      by_cases hn : (s.getSlab b ptr).next_slab_ptr = EMPTY_SLAB_PTR
      · rw [if_pos hn, if_pos hn]
        exact ⟨[], rfl⟩
      · rw [if_neg hn, if_neg hn]
        obtain ⟨t, ht⟩ := ih m2 _ (by omega)
        exact ⟨t, by rw [ht]; rfl⟩

theorem SlotIn_congr (s1 s2 : SlabHashContext) (hh : s1.heads = s2.heads)
    (hs : s1.slabs = s2.slabs) (b f ptr j : Nat) :
    SlotIn s1 b f ptr j ↔ SlotIn s2 b f ptr j := by
  unfold SlotIn
  rw [chainList_congr s1 s2 hh hs]
  constructor
  · rintro ⟨p, hp, i, hi, heq⟩
    exact ⟨p, hp, i, hi, by rw [← getSlab_congr s1 s2 hh hs]; exact heq⟩
  · rintro ⟨p, hp, i, hi, heq⟩
    exact ⟨p, hp, i, hi, by rw [getSlab_congr s1 s2 hh hs]; exact heq⟩

theorem validPtr_setSlab (s : SlabHashContext) (b0 q : Nat) (sl : Slab) (b p : Nat) :
    validPtr (s.setSlab b0 q sl) b p ↔ validPtr s b p := by
  unfold validPtr
  rw [setSlab_heads_length, setSlab_slabs_length]

theorem validPtr_append (s : SlabHashContext) (t : List Slab) (b p : Nat)
    (hv : validPtr s b p) :
    validPtr { s with slabs := s.slabs ++ t } b p := by
  unfold validPtr at hv ⊢
  rcases hv with ⟨hh, hb⟩ | hlt
  · exact Or.inl ⟨hh, hb⟩
  · refine Or.inr ?_
    rw [List.length_append]
    omega

/-- Bundle of facts about one successful Insert of the pre-written record
`idx` with key `k`, walking from `ptr` (fS : fuel for the pre-state chain,
fT : fuel for the runs on the post-states): the published state `s1`; a
second insert of the same key on `s1` takes the duplicate branch, freeing its
pre-allocation and leaving heads and slabs untouched; a remove on `s1`
clears the published slot, frees `idx` and leaves the key unfindable. -/
def InsertRT (s : SlabHashContext) (b k v idx fS fT ptr : Nat) : Prop :=
  ∃ s1 : SlabHashContext,
    insertLoop s k v b idx fT ptr = some (s1, idx, true)
    ∧ s1.pairs = s.pairs
    ∧ s1.num_buckets = s.num_buckets
    ∧ searchLoop s1 k b fT ptr = some (idx, true)
    ∧ (∀ j, j ≠ EMPTY_PAIR_PTR → SlotIn s1 b fT ptr j → SlotIn s b fS ptr j ∨ j = idx)
    ∧ (∀ p, p ∉ chainList s b fS ptr → (p = HEAD_SLAB_PTR ∨ p < s.slabs.length) →
        s1.getSlab b p = s.getSlab b p)
    ∧ (∀ v2 idx2 fr, idx2 ≠ idx → ¬ SlotIn s b fS ptr idx2 →
        insertLoop { s1 with pairs := ⟨s1.pairs.data.set idx2 (k, v2), fr⟩ }
            k v2 b idx2 fT ptr
          = some ({ s1 with pairs := ⟨s1.pairs.data.set idx2 (k, v2), idx2 :: fr⟩ },
              NULL_ITERATOR, false))
    ∧ ∃ s2 : SlabHashContext,
        removeLoop s1 k b fT ptr = some (s2, true)
        ∧ s2.pairs.data = s1.pairs.data
        ∧ s2.pairs.free = idx :: s1.pairs.free
        ∧ s2.num_buckets = s1.num_buckets
        ∧ (∀ p, p ∉ chainList s b fS ptr → (p = HEAD_SLAB_PTR ∨ p < s.slabs.length) →
            s2.getSlab b p = s1.getSlab b p)
        ∧ searchLoop s2 k b fT ptr = some (NULL_ITERATOR, false)

/-- The Insert round-trip bundle when the walk reaches a slab with no match
for the key and a lowest empty pair slot: the pre-allocated record is CASed
into that slot. -/
theorem insertRT_publish (s : SlabHashContext) (b k v idx f ptr lane_empty : Nat)
    (hk : WarpFindKey s.pairs k (s.getSlab b ptr) = none)
    (he : WarpFindEmpty (s.getSlab b ptr) = some lane_empty)
    (hsuffix : (s.getSlab b ptr).next_slab_ptr ≠ EMPTY_SLAB_PTR →
      searchLoop s k b f (s.getSlab b ptr).next_slab_ptr = some (NULL_ITERATOR, false))
    (hnodup : (chainList s b (f + 1) ptr).Nodup)
    (hcond : ∀ p ∈ chainList s b (f + 1) ptr,
      validPtr s b p ∧ (s.getSlab b p).pair_ptrs.length = 31)
    (hidx : ¬ SlotIn s b (f + 1) ptr idx)
    (hkv : s.pairs.extract idx = (k, v))
    (hidxE : idx ≠ EMPTY_PAIR_PTR)
    (hbound : s.slabs.length + (f + 1) < HEAD_SLAB_PTR) :
    InsertRT s b k v idx (f + 1) (f + 4) ptr := by
  have hmemHead : ptr ∈ chainList s b (f + 1) ptr := by
    rw [chainList]; exact List.mem_cons_self _ _
  obtain ⟨hv, hl⟩ := hcond ptr hmemHead
  have hsz : s.slabs.length ≤ HEAD_SLAB_PTR := by omega
  have hfl := he
  rw [WarpFindEmpty] at hfl
  obtain ⟨hlaneLt, hlaneP, hlaneMin⟩ := firstLane_eq_some _ _ _ hfl
  have hlaneE : (s.getSlab b ptr).slot lane_empty = EMPTY_PAIR_PTR :=
    of_decide_eq_true hlaneP
  have hAllPred : ∀ i < 31,
      (decide ((s.getSlab b ptr).slot i ≠ EMPTY_PAIR_PTR) &&
       decide ((s.pairs.extract ((s.getSlab b ptr).slot i)).1 = k)) = false := by
    have hk2 := hk
    rw [WarpFindKey] at hk2
    exact (firstLane_eq_none_iff _ _).mp hk2
  have hgetW : (s.setSlab b ptr
      { s.getSlab b ptr with
        pair_ptrs := (s.getSlab b ptr).pair_ptrs.set lane_empty idx }).getSlab b ptr
      = { s.getSlab b ptr with
          pair_ptrs := (s.getSlab b ptr).pair_ptrs.set lane_empty idx } :=
    getSlab_setSlab_same s b ptr _ hsz hv
  have hslotW_self : (Slab.slot { s.getSlab b ptr with
      pair_ptrs := (s.getSlab b ptr).pair_ptrs.set lane_empty idx }) lane_empty = idx := by
    show ((s.getSlab b ptr).pair_ptrs.set lane_empty idx).getD lane_empty EMPTY_PAIR_PTR = idx
    exact listGetD_set_self _ _ _ _ (by rw [hl]; exact hlaneLt)
  have hslotW_ne : ∀ i, i ≠ lane_empty → (Slab.slot { s.getSlab b ptr with
      pair_ptrs := (s.getSlab b ptr).pair_ptrs.set lane_empty idx }) i
      = (s.getSlab b ptr).slot i := by
    intro i hi
    show ((s.getSlab b ptr).pair_ptrs.set lane_empty idx).getD i EMPTY_PAIR_PTR = _
    rw [listGetD_set_ne _ _ _ _ _ (fun hc => hi hc.symm)]
    rfl
  have hnextW : (Slab.next_slab_ptr { s.getSlab b ptr with
      pair_ptrs := (s.getSlab b ptr).pair_ptrs.set lane_empty idx })
      = (s.getSlab b ptr).next_slab_ptr := rfl
  have hWFKW2 : ∀ (pr : MemoryAllocContext),
      (∀ i, i < 31 → (s.getSlab b ptr).slot i ≠ EMPTY_PAIR_PTR →
        pr.extract ((s.getSlab b ptr).slot i)
          = s.pairs.extract ((s.getSlab b ptr).slot i)) →
      pr.extract idx = (k, v) →
      WarpFindKey pr k { s.getSlab b ptr with
        pair_ptrs := (s.getSlab b ptr).pair_ptrs.set lane_empty idx } = some lane_empty := by
    intro pr hexts hextidx
    rw [WarpFindKey]
    apply firstLane_eq_some_of 31 lane_empty _ hlaneLt
    · rw [hslotW_self, decide_eq_true hidxE]
      have hx : (pr.extract idx).1 = k := by rw [hextidx]
      rw [decide_eq_true hx]
      rfl
    · intro j hj
      rw [hslotW_ne j (by omega)]
      by_cases hE : (s.getSlab b ptr).slot j = EMPTY_PAIR_PTR
      · rw [decide_eq_false (not_not_intro hE), Bool.false_and]
      · rw [hexts j (by omega) hE]
        exact hAllPred j (by omega)
  have hWFKW : WarpFindKey s.pairs k { s.getSlab b ptr with
      pair_ptrs := (s.getSlab b ptr).pair_ptrs.set lane_empty idx } = some lane_empty :=
    hWFKW2 s.pairs (fun _ _ _ => rfl) hkv
  have h41 : f + 4 = (f + 3) + 1 := rfl
  refine ⟨s.setSlab b ptr
    { s.getSlab b ptr with
      pair_ptrs := (s.getSlab b ptr).pair_ptrs.set lane_empty idx },
    ?_, setSlab_pairs s b ptr _, setSlab_num_buckets s b ptr _, ?_, ?_, ?_, ?_, ?_⟩
  · -- A1: the insert publishes here
    rw [h41, insertLoop]
    simp only [hk, he]
  · -- A3: searching the published state finds idx at this slab
    rw [h41, searchLoop]
    rw [hgetW, setSlab_pairs]
    simp only [hWFKW]
    rw [hslotW_self]
  · -- A4: slots of the new state are old slots or idx
    intro j hjE hSlot
    obtain ⟨p, hp, i, hi, heq⟩ := hSlot
    rw [h41, chainList, hgetW, hnextW] at hp
    by_cases hn : (s.getSlab b ptr).next_slab_ptr = EMPTY_SLAB_PTR
    · rw [if_pos hn] at hp
      have hpp : p = ptr := by simpa using hp
      subst hpp
      rw [hgetW] at heq
      by_cases hil : i = lane_empty
      · subst hil
        rw [hslotW_self] at heq
        exact Or.inr heq.symm
      · rw [hslotW_ne i hil] at heq
        exact Or.inl ⟨p, hmemHead, i, hi, heq⟩
    · rw [if_neg hn] at hp
      have hwes : walkEnds s b f (s.getSlab b ptr).next_slab_ptr = true :=
        searchLoop_notfound_walkEnds s k b f _ (hsuffix hn)
      have hstab : chainList s b (f + 3) (s.getSlab b ptr).next_slab_ptr
          = chainList s b f (s.getSlab b ptr).next_slab_ptr :=
        chainList_stable s b f (f + 3) _ hwes (by omega)
      have hptrnot : ptr ∉ chainList s b f (s.getSlab b ptr).next_slab_ptr := by
        intro hc
        rw [chainList, if_neg hn] at hnodup
        exact (List.nodup_cons.mp hnodup).1 hc
      have hframe : ∀ q ∈ chainList s b (f + 3) (s.getSlab b ptr).next_slab_ptr,
          (s.setSlab b ptr
            { s.getSlab b ptr with
              pair_ptrs := (s.getSlab b ptr).pair_ptrs.set lane_empty idx }).getSlab b q
            = s.getSlab b q := by
        intro q hq
        rw [hstab] at hq
        exact getSlab_setSlab_ne s b ptr _ b q (Or.inl (fun hc => hptrnot (hc ▸ hq)))
      rcases List.mem_cons.mp hp with hpp | hptail
      · subst hpp
        rw [hgetW] at heq
        by_cases hil : i = lane_empty
        · subst hil
          rw [hslotW_self] at heq
          exact Or.inr heq.symm
        · rw [hslotW_ne i hil] at heq
          exact Or.inl ⟨p, hmemHead, i, hi, heq⟩
      · rw [chainList_frame s _ b (f + 3) _ hframe] at hptail
        rw [hframe p hptail] at heq
        rw [hstab] at hptail
        refine Or.inl ⟨p, ?_, i, hi, heq⟩
        rw [chainList, if_neg hn]
        exact List.mem_cons_of_mem _ hptail
  · -- A8: slabs off the chain are untouched
    intro p hpnot hpv
    exact getSlab_setSlab_ne s b ptr _ b p (Or.inl (fun hc => hpnot (hc ▸ hmemHead)))
  · -- A5: a second insert of k duplicate-aborts at the published slot
    intro v2 idx2 fr hne2 hnotin2
    rw [h41, insertLoop]
    have hget5 : (SlabHashContext.getSlab
        { s.setSlab b ptr
            { s.getSlab b ptr with
              pair_ptrs := (s.getSlab b ptr).pair_ptrs.set lane_empty idx } with
          pairs := ⟨(s.setSlab b ptr
            { s.getSlab b ptr with
              pair_ptrs := (s.getSlab b ptr).pair_ptrs.set lane_empty idx
            }).pairs.data.set idx2 (k, v2), fr⟩ } b ptr)
        = { s.getSlab b ptr with
            pair_ptrs := (s.getSlab b ptr).pair_ptrs.set lane_empty idx } := hgetW
    rw [hget5]
    have hWFK5 : WarpFindKey
        ⟨(s.setSlab b ptr
            { s.getSlab b ptr with
              pair_ptrs := (s.getSlab b ptr).pair_ptrs.set lane_empty idx
            }).pairs.data.set idx2 (k, v2), fr⟩ k
        { s.getSlab b ptr with
          pair_ptrs := (s.getSlab b ptr).pair_ptrs.set lane_empty idx }
        = some lane_empty := by
      rw [setSlab_pairs]
      apply hWFKW2
      · intro i hi hE
        show (s.pairs.data.set idx2 (k, v2)).getD ((s.getSlab b ptr).slot i) (0, 0)
          = s.pairs.extract ((s.getSlab b ptr).slot i)
        rw [listGetD_set_ne _ _ _ _ _ (fun hc => hnotin2 ⟨ptr, hmemHead, i,
          List.mem_range.mpr hi, hc.symm⟩)]
        rfl
      · show (s.pairs.data.set idx2 (k, v2)).getD idx (0, 0) = (k, v)
        rw [listGetD_set_ne _ _ _ _ _ hne2]
        exact hkv
    simp only [hWFK5]
    rw [setSlab_pairs]
    rfl
  · -- A6: a remove clears the published slot and frees idx
    have hsz1 : (s.setSlab b ptr
        { s.getSlab b ptr with
          pair_ptrs := (s.getSlab b ptr).pair_ptrs.set lane_empty idx
        }).slabs.length ≤ HEAD_SLAB_PTR := by
      rw [setSlab_slabs_length]; exact hsz
    have hv1 : validPtr (s.setSlab b ptr
        { s.getSlab b ptr with
          pair_ptrs := (s.getSlab b ptr).pair_ptrs.set lane_empty idx }) b ptr :=
      (validPtr_setSlab s b ptr _ b ptr).mpr hv
    have hlW : ((s.getSlab b ptr).pair_ptrs.set lane_empty idx).length = 31 := by
      rw [List.length_set]; exact hl
    have hslot2_self : (Slab.slot { s.getSlab b ptr with
        pair_ptrs := ((s.getSlab b ptr).pair_ptrs.set lane_empty idx).set lane_empty
          EMPTY_PAIR_PTR }) lane_empty = EMPTY_PAIR_PTR := by
      show (((s.getSlab b ptr).pair_ptrs.set lane_empty idx).set lane_empty
        EMPTY_PAIR_PTR).getD lane_empty EMPTY_PAIR_PTR = EMPTY_PAIR_PTR
      exact listGetD_set_self _ _ _ _ (by rw [hlW]; exact hlaneLt)
    have hslot2_ne : ∀ i, i ≠ lane_empty → (Slab.slot { s.getSlab b ptr with
        pair_ptrs := ((s.getSlab b ptr).pair_ptrs.set lane_empty idx).set lane_empty
          EMPTY_PAIR_PTR }) i = (s.getSlab b ptr).slot i := by
      intro i hi
      show ((((s.getSlab b ptr).pair_ptrs.set lane_empty idx)).set lane_empty
        EMPTY_PAIR_PTR).getD i EMPTY_PAIR_PTR = _
      rw [listGetD_set_ne _ _ _ _ _ (fun hc => hi hc.symm)]
      rw [listGetD_set_ne _ _ _ _ _ (fun hc => hi hc.symm)]
      rfl
    refine ⟨{ (s.setSlab b ptr
        { s.getSlab b ptr with
          pair_ptrs := (s.getSlab b ptr).pair_ptrs.set lane_empty idx }).setSlab b ptr
        { s.getSlab b ptr with
          pair_ptrs := ((s.getSlab b ptr).pair_ptrs.set lane_empty idx).set lane_empty
            EMPTY_PAIR_PTR } with
      pairs := s.pairs.Free idx }, ?_, ?_, ?_, ?_, ?_, ?_⟩
    · rw [h41, removeLoop]
      rw [hgetW]
      simp only [setSlab_pairs]
      simp only [hWFKW]
      rw [hslotW_self]
    · rw [setSlab_pairs]
      rfl
    · rw [setSlab_pairs]
      rfl
    · rw [setSlab_num_buckets]
    · intro p hpnot hpv
      rw [getSlab_pairsUpdate]
      rw [getSlab_setSlab_ne _ b ptr _ b p (Or.inl (fun hc => hpnot (hc ▸ hmemHead)))]
    · -- search after remove: not found
      have hget6 : (SlabHashContext.getSlab
          { (s.setSlab b ptr
              { s.getSlab b ptr with
                pair_ptrs := (s.getSlab b ptr).pair_ptrs.set lane_empty idx }).setSlab b ptr
              { s.getSlab b ptr with
                pair_ptrs := ((s.getSlab b ptr).pair_ptrs.set lane_empty idx).set lane_empty
                  EMPTY_PAIR_PTR } with
            pairs := s.pairs.Free idx } b ptr)
          = { s.getSlab b ptr with
              pair_ptrs := ((s.getSlab b ptr).pair_ptrs.set lane_empty idx).set lane_empty
                EMPTY_PAIR_PTR } := by
        rw [getSlab_pairsUpdate]
        exact getSlab_setSlab_same _ b ptr _ hsz1 hv1
      rw [h41, searchLoop]
      rw [hget6]
      have hp2 : (SlabHashContext.pairs
          { (s.setSlab b ptr
              { s.getSlab b ptr with
                pair_ptrs := (s.getSlab b ptr).pair_ptrs.set lane_empty idx }).setSlab b ptr
              { s.getSlab b ptr with
                pair_ptrs := ((s.getSlab b ptr).pair_ptrs.set lane_empty idx).set lane_empty
                  EMPTY_PAIR_PTR } with
            pairs := s.pairs.Free idx }) = s.pairs.Free idx := rfl
      rw [hp2]
      have hWFK6 : WarpFindKey (s.pairs.Free idx) k
          { s.getSlab b ptr with
            pair_ptrs := ((s.getSlab b ptr).pair_ptrs.set lane_empty idx).set lane_empty
              EMPTY_PAIR_PTR } = none := by
        rw [WarpFindKey]
        apply (firstLane_eq_none_iff _ _).mpr
        intro j hj
        by_cases hjl : j = lane_empty
        · subst hjl
          rw [hslot2_self]
          rw [decide_eq_false (not_not_intro rfl), Bool.false_and]
        · rw [hslot2_ne j hjl]
          by_cases hE : (s.getSlab b ptr).slot j = EMPTY_PAIR_PTR
          · rw [decide_eq_false (not_not_intro hE), Bool.false_and]
          · have hx : (MemoryAllocContext.Free s.pairs idx).extract ((s.getSlab b ptr).slot j)
                = s.pairs.extract ((s.getSlab b ptr).slot j) := rfl
            rw [hx]
            exact hAllPred j hj
      simp only [hWFK6]
      have hnext6 : (Slab.next_slab_ptr { s.getSlab b ptr with
          pair_ptrs := ((s.getSlab b ptr).pair_ptrs.set lane_empty idx).set lane_empty
            EMPTY_PAIR_PTR }) = (s.getSlab b ptr).next_slab_ptr := rfl
      rw [hnext6]
      by_cases hn : (s.getSlab b ptr).next_slab_ptr = EMPTY_SLAB_PTR
      · rw [if_pos hn]
      · rw [if_neg hn]
        have hwes : walkEnds s b f (s.getSlab b ptr).next_slab_ptr = true :=
          searchLoop_notfound_walkEnds s k b f _ (hsuffix hn)
        have hstab : chainList s b (f + 3) (s.getSlab b ptr).next_slab_ptr
            = chainList s b f (s.getSlab b ptr).next_slab_ptr :=
          chainList_stable s b f (f + 3) _ hwes (by omega)
        have hptrnot : ptr ∉ chainList s b f (s.getSlab b ptr).next_slab_ptr := by
          intro hc
          rw [chainList, if_neg hn] at hnodup
          exact (List.nodup_cons.mp hnodup).1 hc
        have hframe2 : ∀ q ∈ chainList s b (f + 3) (s.getSlab b ptr).next_slab_ptr,
            (SlabHashContext.getSlab
              { (s.setSlab b ptr
                  { s.getSlab b ptr with
                    pair_ptrs := (s.getSlab b ptr).pair_ptrs.set lane_empty idx
                  }).setSlab b ptr
                  { s.getSlab b ptr with
                    pair_ptrs := ((s.getSlab b ptr).pair_ptrs.set lane_empty idx).set
                      lane_empty EMPTY_PAIR_PTR } with
                pairs := s.pairs.Free idx } b q)
              = s.getSlab b q := by
          intro q hq
          rw [hstab] at hq
          rw [getSlab_pairsUpdate]
          rw [getSlab_setSlab_ne _ b ptr _ b q (Or.inl (fun hc => hptrnot (hc ▸ hq)))]
          exact getSlab_setSlab_ne s b ptr _ b q (Or.inl (fun hc => hptrnot (hc ▸ hq)))
        have hfr := searchLoop_frame s _ k b (f + 3) (s.getSlab b ptr).next_slab_ptr
          hframe2 (fun p hp i hi hE => rfl)
        rw [hfr]
        exact searchLoop_mono s k b f (f + 3) _ _ (hsuffix hn) (by omega)

/-- Generic two-slab chain: removing a key stored at lane 0 of the second
slab clears the slot, frees the pair index, and a subsequent search of the
same chain misses. -/
theorem removeRT_two_full (t : SlabHashContext) (k b g ptr q idx : Nat)
    (slP slQ : Slab)
    (hgP : t.getSlab b ptr = slP)
    (hgQ : t.getSlab b q = slQ)
    (hWKP : WarpFindKey t.pairs k slP = none)
    (hWKPF : WarpFindKey (t.pairs.Free idx) k slP = none)
    (hWKQ : WarpFindKey t.pairs k slQ = some 0)
    (hslot0 : slQ.slot 0 = idx)
    (hallQ : ∀ i, i ≠ 0 → slQ.slot i = EMPTY_PAIR_PTR)
    (hlenQ : slQ.pair_ptrs.length = 31)
    (hnextP : slP.next_slab_ptr = q)
    (hqE : q ≠ EMPTY_SLAB_PTR)
    (hnextQ : slQ.next_slab_ptr = EMPTY_SLAB_PTR)
    (hszT : t.slabs.length ≤ HEAD_SLAB_PTR)
    (hvQ : validPtr t b q)
    (hptrq : ptr ≠ q) :
    ∃ s2 : SlabHashContext,
      removeLoop t k b (g + 2) ptr = some (s2, true)
      ∧ s2.pairs.data = t.pairs.data
      ∧ s2.pairs.free = idx :: t.pairs.free
      ∧ s2.num_buckets = t.num_buckets
      ∧ (∀ p, p ≠ q → s2.getSlab b p = t.getSlab b p)
      ∧ searchLoop s2 k b (g + 2) ptr = some (NULL_ITERATOR, false) := by
  have hgS2Q : (SlabHashContext.getSlab
      { t.setSlab b q { slQ with pair_ptrs := slQ.pair_ptrs.set 0 EMPTY_PAIR_PTR } with
        pairs := t.pairs.Free idx } b q)
      = { slQ with pair_ptrs := slQ.pair_ptrs.set 0 EMPTY_PAIR_PTR } := by
    rw [getSlab_pairsUpdate]
    exact getSlab_setSlab_same t b q _ hszT hvQ
  have hgS2P : (SlabHashContext.getSlab
      { t.setSlab b q { slQ with pair_ptrs := slQ.pair_ptrs.set 0 EMPTY_PAIR_PTR } with
        pairs := t.pairs.Free idx } b ptr)
      = slP := by
    rw [getSlab_pairsUpdate]
    rw [getSlab_setSlab_ne t b q _ b ptr (Or.inl hptrq)]
    exact hgP
  have hslotQ2 : ∀ i, (Slab.slot { slQ with
      pair_ptrs := slQ.pair_ptrs.set 0 EMPTY_PAIR_PTR }) i = EMPTY_PAIR_PTR := by
    intro i
    by_cases hi0 : i = 0
    · subst hi0
      show (slQ.pair_ptrs.set 0 EMPTY_PAIR_PTR).getD 0 EMPTY_PAIR_PTR = EMPTY_PAIR_PTR
      exact listGetD_set_self _ _ _ _ (by rw [hlenQ]; omega)
    · show (slQ.pair_ptrs.set 0 EMPTY_PAIR_PTR).getD i EMPTY_PAIR_PTR = EMPTY_PAIR_PTR
      rw [listGetD_set_ne _ _ _ _ _ (fun hc => hi0 hc.symm)]
      exact hallQ i hi0
  have hWKQ2 : WarpFindKey (t.pairs.Free idx) k
      { slQ with pair_ptrs := slQ.pair_ptrs.set 0 EMPTY_PAIR_PTR } = none := by
    rw [WarpFindKey]
    apply (firstLane_eq_none_iff _ _).mpr
    intro j hj
    rw [hslotQ2 j, decide_eq_false (not_not_intro rfl), Bool.false_and]
  have hnextQ2 : (Slab.next_slab_ptr { slQ with
      pair_ptrs := slQ.pair_ptrs.set 0 EMPTY_PAIR_PTR }) = EMPTY_SLAB_PTR := by
    show slQ.next_slab_ptr = EMPTY_SLAB_PTR
    exact hnextQ
  have hpS2 : (SlabHashContext.pairs
      { t.setSlab b q { slQ with pair_ptrs := slQ.pair_ptrs.set 0 EMPTY_PAIR_PTR } with
        pairs := t.pairs.Free idx }) = t.pairs.Free idx := rfl
  refine ⟨{ t.setSlab b q { slQ with pair_ptrs := slQ.pair_ptrs.set 0 EMPTY_PAIR_PTR } with
      pairs := t.pairs.Free idx }, ?_, rfl, rfl, ?_, ?_, ?_⟩
  · rw [show g + 2 = (g + 1) + 1 from rfl, removeLoop]
    rw [hgP]
    simp only [hWKP]
    rw [hnextP, if_neg hqE]
    rw [removeLoop]
    rw [hgQ]
    simp only [hWKQ]
    rw [hslot0]
    rw [setSlab_pairs]
  · show (SlabHashContext.num_buckets
      (t.setSlab b q { slQ with pair_ptrs := slQ.pair_ptrs.set 0 EMPTY_PAIR_PTR }))
      = t.num_buckets
    exact setSlab_num_buckets t b q _
  · intro p hpq
    rw [getSlab_pairsUpdate]
    exact getSlab_setSlab_ne t b q _ b p (Or.inl hpq)
  · rw [show g + 2 = (g + 1) + 1 from rfl, searchLoop]
    rw [hgS2P, hpS2]
    simp only [hWKPF]
    rw [hnextP, if_neg hqE]
    rw [searchLoop]
    rw [hgS2Q, hpS2]
    simp only [hWKQ2]
    rw [hnextQ2, if_pos rfl]


/-- The Insert round-trip bundle at the end of a full chain: the last slab has
no match for the key, no empty pair slot, and an empty next pointer, so
branch 3.2 allocates a fresh slab, links it, and the pre-allocated record is
published at lane 0 of the new slab. -/
theorem insertRT_link (s : SlabHashContext) (b k v idx f ptr : Nat)
    (hk : WarpFindKey s.pairs k (s.getSlab b ptr) = none)
    (he : WarpFindEmpty (s.getSlab b ptr) = none)
    (hnE : (s.getSlab b ptr).next_slab_ptr = EMPTY_SLAB_PTR)
    (hv : validPtr s b ptr)
    (hidx : ¬ SlotIn s b (f + 1) ptr idx)
    (hkv : s.pairs.extract idx = (k, v))
    (hidxE : idx ≠ EMPTY_PAIR_PTR)
    (hbound : s.slabs.length + (f + 1) < HEAD_SLAB_PTR) :
    InsertRT s b k v idx (f + 1) (f + 4) ptr := by
  have hHE : HEAD_SLAB_PTR < EMPTY_SLAB_PTR := by decide
  have hsLE : s.slabs.length ≠ EMPTY_SLAB_PTR := by omega
  have hsLHne : s.slabs.length ≠ HEAD_SLAB_PTR := by omega
  have hptrne : ptr ≠ s.slabs.length := by
    rcases hv with ⟨hh, _⟩ | hlt
    · omega
    · omega
  have hchainS : chainList s b (f + 1) ptr = [ptr] := by
    rw [chainList, if_pos hnE]
  have hmemHead : ptr ∈ chainList s b (f + 1) ptr := by
    rw [hchainS]
    exact List.mem_singleton.mpr rfl
  have hAllPred : ∀ i < 31,
      (decide ((s.getSlab b ptr).slot i ≠ EMPTY_PAIR_PTR) &&
       decide ((s.pairs.extract ((s.getSlab b ptr).slot i)).1 = k)) = false := by
    have hk0 := hk
    rw [WarpFindKey] at hk0
    exact (firstLane_eq_none_iff _ _).mp hk0
  have hv1 : validPtr { s with slabs := s.slabs ++ [emptySlab] } b ptr :=
    validPtr_append s [emptySlab] b ptr hv
  have hsz1 : ({ s with slabs := s.slabs ++ [emptySlab] } : SlabHashContext).slabs.length
      ≤ HEAD_SLAB_PTR := by
    show (s.slabs ++ [emptySlab]).length ≤ HEAD_SLAB_PTR
    rw [List.length_append]
    simp only [List.length_cons, List.length_nil]
    omega
  have hget2ptr : (SlabHashContext.getSlab
      (SlabHashContext.setSlab { s with slabs := s.slabs ++ [emptySlab] } b ptr
        { s.getSlab b ptr with next_slab_ptr := s.slabs.length }) b ptr)
      = { s.getSlab b ptr with next_slab_ptr := s.slabs.length } :=
    getSlab_setSlab_same _ b ptr _ hsz1 hv1
  have hget2new : (SlabHashContext.getSlab
      (SlabHashContext.setSlab { s with slabs := s.slabs ++ [emptySlab] } b ptr
        { s.getSlab b ptr with next_slab_ptr := s.slabs.length }) b s.slabs.length)
      = emptySlab := by
    rw [getSlab_setSlab_ne _ b ptr _ b s.slabs.length (Or.inl (fun hc => hptrne hc.symm))]
    exact getSlab_append_new s emptySlab b hsLHne
  have hpX2 : (SlabHashContext.setSlab { s with slabs := s.slabs ++ [emptySlab] } b ptr
      { s.getSlab b ptr with next_slab_ptr := s.slabs.length }).pairs = s.pairs := by
    rw [setSlab_pairs]
  have hnextPtrL : (Slab.next_slab_ptr { s.getSlab b ptr with
      next_slab_ptr := s.slabs.length }) = s.slabs.length := rfl
  have hnextN : (Slab.next_slab_ptr { emptySlab with
      pair_ptrs := emptySlab.pair_ptrs.set 0 idx }) = EMPTY_SLAB_PTR := rfl
  have hslotN0 : (Slab.slot { emptySlab with
      pair_ptrs := emptySlab.pair_ptrs.set 0 idx }) 0 = idx := by
    show (emptySlab.pair_ptrs.set 0 idx).getD 0 EMPTY_PAIR_PTR = idx
    exact listGetD_set_self _ _ _ _ (by
      show 0 < (List.replicate 31 EMPTY_PAIR_PTR).length
      rw [List.length_replicate]
      omega)
  have hslotNne : ∀ i, i ≠ 0 → (Slab.slot { emptySlab with
      pair_ptrs := emptySlab.pair_ptrs.set 0 idx }) i = EMPTY_PAIR_PTR := by
    intro i hi
    show (emptySlab.pair_ptrs.set 0 idx).getD i EMPTY_PAIR_PTR = EMPTY_PAIR_PTR
    rw [listGetD_set_ne _ _ _ _ _ (fun hc => hi hc.symm)]
    exact emptySlab_slot i
  have hk2gen : ∀ (pr : MemoryAllocContext),
      (∀ i, i < 31 → (s.getSlab b ptr).slot i ≠ EMPTY_PAIR_PTR →
        pr.extract ((s.getSlab b ptr).slot i)
          = s.pairs.extract ((s.getSlab b ptr).slot i)) →
      WarpFindKey pr k { s.getSlab b ptr with next_slab_ptr := s.slabs.length } = none := by
    intro pr hexts
    rw [WarpFindKey]
    apply (firstLane_eq_none_iff _ _).mpr
    intro j hj
    have hsl : (Slab.slot { s.getSlab b ptr with next_slab_ptr := s.slabs.length } j)
        = (s.getSlab b ptr).slot j := rfl
    rw [hsl]
    by_cases hE : (s.getSlab b ptr).slot j = EMPTY_PAIR_PTR
    · rw [decide_eq_false (not_not_intro hE), Bool.false_and]
    · rw [hexts j hj hE]
      exact hAllPred j hj
  have hk2 : WarpFindKey s.pairs k
      { s.getSlab b ptr with next_slab_ptr := s.slabs.length } = none :=
    hk2gen s.pairs (fun _ _ _ => rfl)
  have he2 : WarpFindEmpty { s.getSlab b ptr with next_slab_ptr := s.slabs.length } = none := by
    exact (WarpFindEmpty_pair_ptrs _ (s.getSlab b ptr) rfl).trans he
  have hWFKN : WarpFindKey s.pairs k emptySlab = none := by
    rw [WarpFindKey]
    apply (firstLane_eq_none_iff _ _).mpr
    intro j hj
    rw [emptySlab_slot j, decide_eq_false (not_not_intro rfl), Bool.false_and]
  have hWFEN : WarpFindEmpty emptySlab = some 0 := by
    rw [WarpFindEmpty]
    apply firstLane_eq_some_of 31 0 _ (by omega)
    · rw [emptySlab_slot 0]
      exact decide_eq_true rfl
    · intro j hj
      omega
  have hWFK3 : WarpFindKey s.pairs k { emptySlab with
      pair_ptrs := emptySlab.pair_ptrs.set 0 idx } = some 0 := by
    rw [WarpFindKey]
    apply firstLane_eq_some_of 31 0 _ (by omega)
    · rw [hslotN0, decide_eq_true hidxE]
      have hx : (s.pairs.extract idx).1 = k := by rw [hkv]
      rw [decide_eq_true hx]
      rfl
    · intro j hj
      omega
  have hA1rec : insertLoop
      (SlabHashContext.setSlab { s with slabs := s.slabs ++ [emptySlab] } b ptr
        { s.getSlab b ptr with next_slab_ptr := s.slabs.length }) k v b idx (f + 3) ptr
      = some ((SlabHashContext.setSlab { s with slabs := s.slabs ++ [emptySlab] } b ptr
          { s.getSlab b ptr with next_slab_ptr := s.slabs.length }).setSlab b s.slabs.length
          { emptySlab with pair_ptrs := emptySlab.pair_ptrs.set 0 idx }, idx, true) := by
    rw [show f + 3 = (f + 2) + 1 from rfl, insertLoop]
    rw [hget2ptr]
    simp only [hpX2]
    simp only [hk2, he2]
    rw [if_pos hsLE]
    rw [show f + 2 = (f + 1) + 1 from rfl, insertLoop]
    rw [hget2new]
    simp only [hpX2]
    simp only [hWFKN, hWFEN]
  have hpA : ((SlabHashContext.setSlab { s with slabs := s.slabs ++ [emptySlab] } b ptr
      { s.getSlab b ptr with next_slab_ptr := s.slabs.length }).setSlab b s.slabs.length
      { emptySlab with pair_ptrs := emptySlab.pair_ptrs.set 0 idx }).pairs = s.pairs := by
    rw [setSlab_pairs, setSlab_pairs]
  have hszX2 : (SlabHashContext.setSlab { s with slabs := s.slabs ++ [emptySlab] } b ptr
      { s.getSlab b ptr with next_slab_ptr := s.slabs.length }).slabs.length
      ≤ HEAD_SLAB_PTR := by
    rw [setSlab_slabs_length]
    exact hsz1
  have hvX2 : validPtr (SlabHashContext.setSlab { s with slabs := s.slabs ++ [emptySlab] }
      b ptr { s.getSlab b ptr with next_slab_ptr := s.slabs.length }) b s.slabs.length := by
    rw [validPtr_setSlab]
    refine Or.inr ?_
    show s.slabs.length < (s.slabs ++ [emptySlab]).length
    rw [List.length_append]
    simp only [List.length_cons, List.length_nil]
    omega
  have hgetAnew : (SlabHashContext.getSlab
      ((SlabHashContext.setSlab { s with slabs := s.slabs ++ [emptySlab] } b ptr
        { s.getSlab b ptr with next_slab_ptr := s.slabs.length }).setSlab b s.slabs.length
        { emptySlab with pair_ptrs := emptySlab.pair_ptrs.set 0 idx }) b s.slabs.length)
      = { emptySlab with pair_ptrs := emptySlab.pair_ptrs.set 0 idx } :=
    getSlab_setSlab_same _ b s.slabs.length _ hszX2 hvX2
  have hgetAptr : (SlabHashContext.getSlab
      ((SlabHashContext.setSlab { s with slabs := s.slabs ++ [emptySlab] } b ptr
        { s.getSlab b ptr with next_slab_ptr := s.slabs.length }).setSlab b s.slabs.length
        { emptySlab with pair_ptrs := emptySlab.pair_ptrs.set 0 idx }) b ptr)
      = { s.getSlab b ptr with next_slab_ptr := s.slabs.length } := by
    rw [getSlab_setSlab_ne _ b s.slabs.length _ b ptr (Or.inl hptrne)]
    exact hget2ptr
  refine ⟨(SlabHashContext.setSlab { s with slabs := s.slabs ++ [emptySlab] } b ptr
      { s.getSlab b ptr with next_slab_ptr := s.slabs.length }).setSlab b s.slabs.length
      { emptySlab with pair_ptrs := emptySlab.pair_ptrs.set 0 idx },
    ?_, hpA, ?_, ?_, ?_, ?_, ?_, ?_⟩
  · -- A1: the insert links a fresh slab and publishes at its lane 0
    rw [show f + 4 = (f + 3) + 1 from rfl, insertLoop]
    simp only [hk, he]
    rw [if_neg (fun hc => hc hnE)]
    exact hA1rec
  · -- num_buckets unchanged
    rw [setSlab_num_buckets, setSlab_num_buckets]
  · -- A3: searching the linked state finds idx in the fresh slab
    rw [show f + 4 = (f + 3) + 1 from rfl, searchLoop]
    rw [hgetAptr]
    simp only [hpA]
    simp only [hk2]
    rw [if_neg hsLE]
    rw [show f + 3 = (f + 2) + 1 from rfl, searchLoop]
    rw [hgetAnew]
    simp only [hpA]
    simp only [hWFK3]
    rw [hslotN0]
  · -- A4: slots of the new state are old slots or idx
    intro j hjE hSlot
    obtain ⟨p, hp, i, hi, heq⟩ := hSlot
    rw [show f + 4 = (f + 3) + 1 from rfl, chainList, hgetAptr, hnextPtrL, if_neg hsLE] at hp
    rw [show f + 3 = (f + 2) + 1 from rfl, chainList, hgetAnew, hnextN, if_pos rfl] at hp
    rcases List.mem_cons.mp hp with hpp | hp2
    · subst hpp
      rw [hgetAptr] at heq
      have hsl : (Slab.slot { s.getSlab b p with next_slab_ptr := s.slabs.length } i)
          = (s.getSlab b p).slot i := rfl
      rw [hsl] at heq
      exact Or.inl ⟨p, hmemHead, i, hi, heq⟩
    · have hpp2 : p = s.slabs.length := by simpa using hp2
      subst hpp2
      rw [hgetAnew] at heq
      by_cases hi0 : i = 0
      · subst hi0
        rw [hslotN0] at heq
        exact Or.inr heq.symm
      · rw [hslotNne i hi0] at heq
        exact absurd heq.symm hjE
  · -- A8: slabs off the chain are untouched
    intro p hpnot hpv
    have hpne : p ≠ ptr := fun hc => hpnot (hc ▸ hmemHead)
    have hpneL : p ≠ s.slabs.length := by
      rcases hpv with hh | hlt
      · omega
      · omega
    rw [getSlab_setSlab_ne _ b s.slabs.length _ b p (Or.inl hpneL)]
    rw [getSlab_setSlab_ne _ b ptr _ b p (Or.inl hpne)]
    exact getSlab_append s [emptySlab] b p hpv
  · -- A5: a second insert of k duplicate-aborts at the fresh slab
    intro v2 idx2 fr hne2 hnotin2
    rw [show f + 4 = (f + 3) + 1 from rfl, insertLoop]
    have hgetBptr : (SlabHashContext.getSlab
        { (SlabHashContext.setSlab { s with slabs := s.slabs ++ [emptySlab] } b ptr
            { s.getSlab b ptr with next_slab_ptr := s.slabs.length }).setSlab b s.slabs.length
            { emptySlab with pair_ptrs := emptySlab.pair_ptrs.set 0 idx } with
          pairs := ⟨((SlabHashContext.setSlab { s with slabs := s.slabs ++ [emptySlab] } b ptr
            { s.getSlab b ptr with next_slab_ptr := s.slabs.length }).setSlab b s.slabs.length
            { emptySlab with pair_ptrs := emptySlab.pair_ptrs.set 0 idx
            }).pairs.data.set idx2 (k, v2), fr⟩ } b ptr)
        = { s.getSlab b ptr with next_slab_ptr := s.slabs.length } := by
      rw [getSlab_pairsUpdate]
      exact hgetAptr
    rw [hgetBptr]
    have hWFK5p : WarpFindKey
        ⟨((SlabHashContext.setSlab { s with slabs := s.slabs ++ [emptySlab] } b ptr
          { s.getSlab b ptr with next_slab_ptr := s.slabs.length }).setSlab b s.slabs.length
          { emptySlab with pair_ptrs := emptySlab.pair_ptrs.set 0 idx
          }).pairs.data.set idx2 (k, v2), fr⟩ k
        { s.getSlab b ptr with next_slab_ptr := s.slabs.length } = none := by
      apply hk2gen
      intro i hi hE
      show (((SlabHashContext.setSlab { s with slabs := s.slabs ++ [emptySlab] } b ptr
          { s.getSlab b ptr with next_slab_ptr := s.slabs.length }).setSlab b s.slabs.length
          { emptySlab with pair_ptrs := emptySlab.pair_ptrs.set 0 idx
          }).pairs.data.set idx2 (k, v2)).getD ((s.getSlab b ptr).slot i) (0, 0)
        = s.pairs.extract ((s.getSlab b ptr).slot i)
      rw [hpA]
      rw [listGetD_set_ne _ _ _ _ _ (fun hc => hnotin2 ⟨ptr, hmemHead, i,
        List.mem_range.mpr hi, hc.symm⟩)]
      rfl
    simp only [hWFK5p]
    simp only [he2]
    rw [if_pos hsLE]
    rw [show f + 3 = (f + 2) + 1 from rfl, insertLoop]
    have hgetBnew : (SlabHashContext.getSlab
        { (SlabHashContext.setSlab { s with slabs := s.slabs ++ [emptySlab] } b ptr
            { s.getSlab b ptr with next_slab_ptr := s.slabs.length }).setSlab b s.slabs.length
            { emptySlab with pair_ptrs := emptySlab.pair_ptrs.set 0 idx } with
          pairs := ⟨((SlabHashContext.setSlab { s with slabs := s.slabs ++ [emptySlab] } b ptr
            { s.getSlab b ptr with next_slab_ptr := s.slabs.length }).setSlab b s.slabs.length
            { emptySlab with pair_ptrs := emptySlab.pair_ptrs.set 0 idx
            }).pairs.data.set idx2 (k, v2), fr⟩ } b s.slabs.length)
        = { emptySlab with pair_ptrs := emptySlab.pair_ptrs.set 0 idx } := by
      rw [getSlab_pairsUpdate]
      exact hgetAnew
    rw [hgetBnew]
    have hWFK5n : WarpFindKey
        ⟨((SlabHashContext.setSlab { s with slabs := s.slabs ++ [emptySlab] } b ptr
          { s.getSlab b ptr with next_slab_ptr := s.slabs.length }).setSlab b s.slabs.length
          { emptySlab with pair_ptrs := emptySlab.pair_ptrs.set 0 idx
          }).pairs.data.set idx2 (k, v2), fr⟩ k
        { emptySlab with pair_ptrs := emptySlab.pair_ptrs.set 0 idx } = some 0 := by
      rw [WarpFindKey]
      apply firstLane_eq_some_of 31 0 _ (by omega)
      · rw [hslotN0, decide_eq_true hidxE]
        have hx : ((⟨((SlabHashContext.setSlab { s with slabs := s.slabs ++ [emptySlab] }
            b ptr { s.getSlab b ptr with next_slab_ptr := s.slabs.length
            }).setSlab b s.slabs.length
            { emptySlab with pair_ptrs := emptySlab.pair_ptrs.set 0 idx
            }).pairs.data.set idx2 (k, v2), fr⟩ : MemoryAllocContext).extract idx).1 = k := by
          show ((((SlabHashContext.setSlab { s with slabs := s.slabs ++ [emptySlab] }
            b ptr { s.getSlab b ptr with next_slab_ptr := s.slabs.length
            }).setSlab b s.slabs.length
            { emptySlab with pair_ptrs := emptySlab.pair_ptrs.set 0 idx
            }).pairs.data.set idx2 (k, v2)).getD idx (0, 0)).1 = k
          rw [hpA]
          rw [listGetD_set_ne _ _ _ _ _ hne2]
          show (s.pairs.extract idx).1 = k
          rw [hkv]
        rw [decide_eq_true hx]
        rfl
      · intro j hj
        omega
    simp only [hWFK5n]
    rfl
  · -- A6: a remove clears the fresh slab's lane 0 and frees idx
    have hszA : (((SlabHashContext.setSlab { s with slabs := s.slabs ++ [emptySlab] } b ptr
        { s.getSlab b ptr with next_slab_ptr := s.slabs.length }).setSlab b s.slabs.length
        { emptySlab with pair_ptrs := emptySlab.pair_ptrs.set 0 idx }).slabs.length : Nat) ≤ HEAD_SLAB_PTR := by
      rw [setSlab_slabs_length]
      exact hszX2
    have hvA : validPtr ((SlabHashContext.setSlab { s with slabs := s.slabs ++ [emptySlab] } b ptr
        { s.getSlab b ptr with next_slab_ptr := s.slabs.length }).setSlab b s.slabs.length
        { emptySlab with pair_ptrs := emptySlab.pair_ptrs.set 0 idx }) b s.slabs.length := by
      rw [validPtr_setSlab]
      exact hvX2
    have hlenQA : (Slab.pair_ptrs { emptySlab with
        pair_ptrs := emptySlab.pair_ptrs.set 0 idx }).length = 31 := by
      show (emptySlab.pair_ptrs.set 0 idx).length = 31
      rw [List.length_set]
      show (List.replicate 31 EMPTY_PAIR_PTR).length = 31
      rw [List.length_replicate]
    have hWKPA : WarpFindKey ((SlabHashContext.setSlab { s with slabs := s.slabs ++ [emptySlab] } b ptr
        { s.getSlab b ptr with next_slab_ptr := s.slabs.length }).setSlab b s.slabs.length
        { emptySlab with pair_ptrs := emptySlab.pair_ptrs.set 0 idx }).pairs k
        { s.getSlab b ptr with next_slab_ptr := s.slabs.length } = none := by
      rw [hpA]
      exact hk2
    have hWKPFA : WarpFindKey (((SlabHashContext.setSlab { s with slabs := s.slabs ++ [emptySlab] } b ptr
        { s.getSlab b ptr with next_slab_ptr := s.slabs.length }).setSlab b s.slabs.length
        { emptySlab with pair_ptrs := emptySlab.pair_ptrs.set 0 idx }).pairs.Free idx) k
        { s.getSlab b ptr with next_slab_ptr := s.slabs.length } = none := by
      rw [hpA]
      exact hk2gen (s.pairs.Free idx) (fun _ _ _ => rfl)
    have hWKQA : WarpFindKey ((SlabHashContext.setSlab { s with slabs := s.slabs ++ [emptySlab] } b ptr
        { s.getSlab b ptr with next_slab_ptr := s.slabs.length }).setSlab b s.slabs.length
        { emptySlab with pair_ptrs := emptySlab.pair_ptrs.set 0 idx }).pairs k
        { emptySlab with pair_ptrs := emptySlab.pair_ptrs.set 0 idx } = some 0 := by
      rw [hpA]
      exact hWFK3
    obtain ⟨s2R, h1, h2, h3, h4, h5, h6⟩ := removeRT_two_full ((SlabHashContext.setSlab { s with slabs := s.slabs ++ [emptySlab] } b ptr
        { s.getSlab b ptr with next_slab_ptr := s.slabs.length }).setSlab b s.slabs.length
        { emptySlab with pair_ptrs := emptySlab.pair_ptrs.set 0 idx }) k b (f + 2) ptr
      s.slabs.length idx { s.getSlab b ptr with next_slab_ptr := s.slabs.length }
      { emptySlab with pair_ptrs := emptySlab.pair_ptrs.set 0 idx }
      hgetAptr hgetAnew hWKPA hWKPFA hWKQA hslotN0 hslotNne hlenQA hnextPtrL hsLE hnextN
      hszA hvA hptrne
    refine ⟨s2R, h1, h2, h3, h4, ?_, h6⟩
    intro p hpnot hpv
    refine h5 p ?_
    rcases hpv with hh | hlt
    · omega
    · omega

/-- The Insert round-trip bundle is preserved one slab up the chain: if the
current slab has no match, no empty slot, and a non-empty next pointer, the
bundle at the next slab lifts to the current one with one more unit of fuel. -/
theorem insertRT_step (s : SlabHashContext) (b k v idx f ptr : Nat)
    (hk : WarpFindKey s.pairs k (s.getSlab b ptr) = none)
    (he : WarpFindEmpty (s.getSlab b ptr) = none)
    (hnE : (s.getSlab b ptr).next_slab_ptr ≠ EMPTY_SLAB_PTR)
    (hnodup : (chainList s b (f + 1) ptr).Nodup)
    (hcond : ∀ p ∈ chainList s b (f + 1) ptr,
      validPtr s b p ∧ (s.getSlab b p).pair_ptrs.length = 31)
    (hIH : InsertRT s b k v idx f (f + 3) (s.getSlab b ptr).next_slab_ptr) :
    InsertRT s b k v idx (f + 1) (f + 4) ptr := by
  have hchain : chainList s b (f + 1) ptr
      = ptr :: chainList s b f (s.getSlab b ptr).next_slab_ptr := by
    rw [chainList, if_neg hnE]
  have hmemHead : ptr ∈ chainList s b (f + 1) ptr := by
    rw [hchain]
    exact List.mem_cons_self _ _
  obtain ⟨hv, hl⟩ := hcond ptr hmemHead
  have hvalid_cond : ptr = HEAD_SLAB_PTR ∨ ptr < s.slabs.length := by
    rcases hv with ⟨hh, _⟩ | hlt
    · exact Or.inl hh
    · exact Or.inr hlt
  have hptrtail : ptr ∉ chainList s b f (s.getSlab b ptr).next_slab_ptr := by
    intro hc
    rw [hchain] at hnodup
    exact (List.nodup_cons.mp hnodup).1 hc
  have hAllPred : ∀ i < 31,
      (decide ((s.getSlab b ptr).slot i ≠ EMPTY_PAIR_PTR) &&
       decide ((s.pairs.extract ((s.getSlab b ptr).slot i)).1 = k)) = false := by
    have hk0 := hk
    rw [WarpFindKey] at hk0
    exact (firstLane_eq_none_iff _ _).mp hk0
  obtain ⟨s1, hA1, hA2p, hA2n, hA3, hA4, hA8, hA5, hA6⟩ := hIH
  have hg1ptr : s1.getSlab b ptr = s.getSlab b ptr := hA8 ptr hptrtail hvalid_cond
  refine ⟨s1, ?_, hA2p, hA2n, ?_, ?_, ?_, ?_, ?_⟩
  · -- A1: walk one slab, then the bundle's insert applies
    rw [show f + 4 = (f + 3) + 1 from rfl, insertLoop]
    simp only [hk, he]
    rw [if_pos hnE]
    exact hA1
  · -- A3: the search walks one slab, then finds idx
    rw [show f + 4 = (f + 3) + 1 from rfl, searchLoop]
    rw [hg1ptr, hA2p]
    simp only [hk]
    rw [if_neg hnE]
    exact hA3
  · -- A4: slots decompose into the head slab and the tail chain
    intro j hjE hSlot
    obtain ⟨p, hp, i, hi, heq⟩ := hSlot
    have hchain1 : chainList s1 b (f + 4) ptr
        = ptr :: chainList s1 b (f + 3) (s.getSlab b ptr).next_slab_ptr := by
      rw [show f + 4 = (f + 3) + 1 from rfl, chainList, hg1ptr, if_neg hnE]
    rw [hchain1] at hp
    rcases List.mem_cons.mp hp with hpp | hptail
    · subst hpp
      rw [hg1ptr] at heq
      exact Or.inl ⟨p, hmemHead, i, hi, heq⟩
    · rcases hA4 j hjE ⟨p, hptail, i, hi, heq⟩ with hin | hidxeq
      · obtain ⟨p2, hp2, i2, hi2, heq2⟩ := hin
        refine Or.inl ⟨p2, ?_, i2, hi2, heq2⟩
        rw [hchain]
        exact List.mem_cons_of_mem _ hp2
      · exact Or.inr hidxeq
  · -- A8: the frame lifts from the tail chain to the full chain
    intro p hpnot hpv
    refine hA8 p (fun hc => hpnot ?_) hpv
    rw [hchain]
    exact List.mem_cons_of_mem _ hc
  · -- A5: the duplicate-abort of a deeper record lifts one slab up
    intro v2 idx2 fr hne2 hnotin2
    rw [show f + 4 = (f + 3) + 1 from rfl, insertLoop]
    have hgB : (SlabHashContext.getSlab { s1 with
        pairs := ⟨s1.pairs.data.set idx2 (k, v2), fr⟩ } b ptr) = s.getSlab b ptr := by
      rw [getSlab_pairsUpdate]
      exact hg1ptr
    rw [hgB]
    have hWFKB : WarpFindKey (⟨s1.pairs.data.set idx2 (k, v2), fr⟩ : MemoryAllocContext) k
        (s.getSlab b ptr) = none := by
      rw [WarpFindKey]
      apply (firstLane_eq_none_iff _ _).mpr
      intro j hj
      by_cases hE : (s.getSlab b ptr).slot j = EMPTY_PAIR_PTR
      · rw [decide_eq_false (not_not_intro hE), Bool.false_and]
      · have hx : (MemoryAllocContext.extract ⟨s1.pairs.data.set idx2 (k, v2), fr⟩
            ((s.getSlab b ptr).slot j)) = s.pairs.extract ((s.getSlab b ptr).slot j) := by
          show (s1.pairs.data.set idx2 (k, v2)).getD ((s.getSlab b ptr).slot j) (0, 0)
            = s.pairs.extract ((s.getSlab b ptr).slot j)
          rw [hA2p]
          rw [listGetD_set_ne _ _ _ _ _ (fun hc => hnotin2 ⟨ptr, hmemHead, j,
            List.mem_range.mpr hj, hc.symm⟩)]
          rfl
        rw [hx]
        exact hAllPred j hj
    simp only [hWFKB]
    simp only [he]
    rw [if_pos hnE]
    refine hA5 v2 idx2 fr hne2 (fun hc => hnotin2 ?_)
    obtain ⟨p2, hp2, i2, hi2, heq2⟩ := hc
    refine ⟨p2, ?_, i2, hi2, heq2⟩
    rw [hchain]
    exact List.mem_cons_of_mem _ hp2
  · -- A6: the remove and the post-remove search lift one slab up
    obtain ⟨s2, hR1, hR2, hR3, hR4, hR5, hR6⟩ := hA6
    have hg2ptr : s2.getSlab b ptr = s.getSlab b ptr := by
      rw [hR5 ptr hptrtail hvalid_cond]
      exact hg1ptr
    refine ⟨s2, ?_, hR2, hR3, hR4, ?_, ?_⟩
    · rw [show f + 4 = (f + 3) + 1 from rfl, removeLoop]
      rw [hg1ptr, hA2p]
      simp only [hk]
      rw [if_neg hnE]
      exact hR1
    · intro p hpnot hpv
      refine hR5 p (fun hc => hpnot ?_) hpv
      rw [hchain]
      exact List.mem_cons_of_mem _ hc
    · rw [show f + 4 = (f + 3) + 1 from rfl, searchLoop]
      rw [hg2ptr]
      have hWFK2 : WarpFindKey s2.pairs k (s.getSlab b ptr) = none := by
        rw [WarpFindKey_congr_data s2.pairs s.pairs (by rw [hR2, hA2p]) k _]
        exact hk
      simp only [hWFK2]
      rw [if_neg hnE]
      exact hR6

/-- The full Insert round-trip bundle along any chain the search walks to a
miss: induction over the walk, with the publish, link, and step cases. -/
theorem insertRT_master (s : SlabHashContext) (b k v idx : Nat)
    (hkv : s.pairs.extract idx = (k, v)) (hidxE : idx ≠ EMPTY_PAIR_PTR) :
    ∀ f ptr, searchLoop s k b f ptr = some (NULL_ITERATOR, false) →
      (chainList s b f ptr).Nodup →
      (∀ p ∈ chainList s b f ptr,
        validPtr s b p ∧ (s.getSlab b p).pair_ptrs.length = 31) →
      ¬ SlotIn s b f ptr idx →
      s.slabs.length + f < HEAD_SLAB_PTR →
      InsertRT s b k v idx f (f + 3) ptr := by
  intro f
  induction f with
  | zero =>
    intro ptr h _ _ _ _
    exact Option.noConfusion h
  | succ m ih =>
    intro ptr hsearch hnodup hcond hidx hbound
    have hs2 := hsearch
    rw [searchLoop] at hs2
    cases hWK : WarpFindKey s.pairs k (s.getSlab b ptr) with
    | some lf =>
      simp only [hWK] at hs2
      simp at hs2
    | none =>
      simp only [hWK] at hs2
      cases hWE : WarpFindEmpty (s.getSlab b ptr) with
      | some lane =>
        exact insertRT_publish s b k v idx m ptr lane hWK hWE
          (fun hne => by rw [if_neg hne] at hs2; exact hs2)
          hnodup hcond hidx hkv hidxE hbound
      | none =>
        by_cases hnE : (s.getSlab b ptr).next_slab_ptr = EMPTY_SLAB_PTR
        · exact insertRT_link s b k v idx m ptr hWK hWE hnE
            (hcond ptr (by rw [chainList]; exact List.mem_cons_self _ _)).1
            hidx hkv hidxE hbound
        · rw [if_neg hnE] at hs2
          have hchain : chainList s b (m + 1) ptr
              = ptr :: chainList s b m (s.getSlab b ptr).next_slab_ptr := by
            rw [chainList, if_neg hnE]
          have htailsub : ∀ p ∈ chainList s b m (s.getSlab b ptr).next_slab_ptr,
              p ∈ chainList s b (m + 1) ptr := by
            intro p hp
            rw [hchain]
            exact List.mem_cons_of_mem _ hp
          refine insertRT_step s b k v idx m ptr hWK hWE hnE hnodup hcond ?_
          refine ih (s.getSlab b ptr).next_slab_ptr hs2 ?_ ?_ ?_ ?_
          · rw [hchain] at hnodup
            exact (List.nodup_cons.mp hnodup).2
          · intro p hp
            exact hcond p (htailsub p hp)
          · intro hc
            obtain ⟨p, hp, i, hi, heq⟩ := hc
            exact hidx ⟨p, htailsub p hp, i, hi, heq⟩
          · omega

/-- From a well-formed table and a missed search, the full Insert round-trip
bundle holds at the state whose pre-allocated record has been written: the
`Insert` wrapper reduces to `insertLoop` on that state, the bundle applies at
the search fuel, and no free index occurs in the walked chain. -/
theorem insert_bundle_of_miss (s : SlabHashContext) (hash : Nat → Nat)
    (k v idx fuel : Nat) (rest : List Nat)
    (hwf : WF s)
    (hfree : s.pairs.free = idx :: rest)
    (habs : s.Search hash k fuel = some (NULL_ITERATOR, false))
    (hcap : s.slabs.length + fuel < HEAD_SLAB_PTR) :
    s.Insert hash k v (fuel + 3)
      = insertLoop { s with pairs := (MemoryAllocContext.write
          { s.pairs with free := rest } idx (k, v)) } k v (s.ComputeBucket hash k) idx
          (fuel + 3) HEAD_SLAB_PTR
    ∧ InsertRT { s with pairs := (MemoryAllocContext.write { s.pairs with free := rest }
        idx (k, v)) } (s.ComputeBucket hash k) k v idx fuel (fuel + 3) HEAD_SLAB_PTR
    ∧ (∀ j ∈ s.pairs.free, ¬ SlotIn { s with pairs := (MemoryAllocContext.write
        { s.pairs with free := rest } idx (k, v)) } (s.ComputeBucket hash k) fuel
        HEAD_SLAB_PTR j)
    ∧ ({ s with pairs := (MemoryAllocContext.write { s.pairs with free := rest }
        idx (k, v)) } : SlabHashContext).pairs.extract idx = (k, v) := by
  obtain ⟨hnb, hheads, hslabs, hdatalen, hnodupfr, hfreelt, hchains, hfreeunref⟩ := hwf
  have hidxmem : idx ∈ s.pairs.free := by
    rw [hfree]
    exact List.mem_cons_self _ _
  have hidxlt : idx < s.pairs.data.length := hfreelt idx hidxmem
  have hidxE : idx ≠ EMPTY_PAIR_PTR := by omega
  have hsz : s.slabs.length ≤ HEAD_SLAB_PTR := by omega
  have hb : s.ComputeBucket hash k < s.num_buckets := Nat.mod_lt _ hnb
  obtain ⟨hend, hnodupC, hcondC⟩ := hchains (s.ComputeBucket hash k) hb
  have habs2 := habs
  rw [SlabHashContext.Search] at habs2
  have hwalk : walkEnds s (s.ComputeBucket hash k) fuel HEAD_SLAB_PTR = true :=
    searchLoop_notfound_walkEnds s k (s.ComputeBucket hash k) fuel HEAD_SLAB_PTR habs2
  have hchainEq : chainList s (s.ComputeBucket hash k) fuel HEAD_SLAB_PTR
      = chainList s (s.ComputeBucket hash k) (s.slabs.length + 1) HEAD_SLAB_PTR := by
    by_cases hle : fuel ≤ s.slabs.length + 1
    · exact (chainList_stable s (s.ComputeBucket hash k) fuel (s.slabs.length + 1)
        HEAD_SLAB_PTR hwalk hle).symm
    · exact chainList_stable s (s.ComputeBucket hash k) (s.slabs.length + 1) fuel
        HEAD_SLAB_PTR hend (by omega)
  have hnodupF : (chainList s (s.ComputeBucket hash k) fuel HEAD_SLAB_PTR).Nodup := by
    rw [hchainEq]
    exact hnodupC
  have hcondF : ∀ p ∈ chainList s (s.ComputeBucket hash k) fuel HEAD_SLAB_PTR,
      validPtr s (s.ComputeBucket hash k) p
      ∧ (s.getSlab (s.ComputeBucket hash k) p).pair_ptrs.length = 31 := by
    intro p hp
    rw [hchainEq] at hp
    exact hcondC p hp
  have hextW : ∀ j0, j0 ≠ idx →
      (MemoryAllocContext.extract (MemoryAllocContext.write { s.pairs with free := rest }
        idx (k, v)) j0) = s.pairs.extract j0 := by
    intro j0 hj0
    show (s.pairs.data.set idx (k, v)).getD j0 (0, 0) = s.pairs.extract j0
    rw [listGetD_set_ne _ _ _ _ _ (fun hc => hj0 hc.symm)]
    rfl
  have hslotne : ∀ p ∈ chainList s (s.ComputeBucket hash k) fuel HEAD_SLAB_PTR,
      ∀ i < 31, (s.getSlab (s.ComputeBucket hash k) p).slot i ≠ idx := by
    intro p hp i hi hc
    refine hfreeunref idx hidxmem ?_
    refine SlotIn_imp_SlotInAll s (s.ComputeBucket hash k) fuel HEAD_SLAB_PTR idx hsz
      (fun q hq => (hcondF q hq).1) ⟨p, hp, i, List.mem_range.mpr hi, hc⟩
  have hgetEq : ∀ p, (SlabHashContext.getSlab { s with
      pairs := (MemoryAllocContext.write { s.pairs with free := rest } idx (k, v)) }
      (s.ComputeBucket hash k) p) = s.getSlab (s.ComputeBucket hash k) p :=
    fun p => getSlab_congr _ s rfl rfl (s.ComputeBucket hash k) p
  have hchainW : chainList { s with
      pairs := (MemoryAllocContext.write { s.pairs with free := rest } idx (k, v)) }
      (s.ComputeBucket hash k) fuel HEAD_SLAB_PTR
      = chainList s (s.ComputeBucket hash k) fuel HEAD_SLAB_PTR :=
    chainList_congr { s with pairs := (MemoryAllocContext.write
      { s.pairs with free := rest } idx (k, v)) } s rfl rfl
      (s.ComputeBucket hash k) fuel HEAD_SLAB_PTR
  have hkvW : (MemoryAllocContext.extract (MemoryAllocContext.write
      { s.pairs with free := rest } idx (k, v)) idx) = (k, v) := by
    show (s.pairs.data.set idx (k, v)).getD idx (0, 0) = (k, v)
    exact listGetD_set_self _ _ _ _ hidxlt
  have hsearchW : searchLoop { s with
      pairs := (MemoryAllocContext.write { s.pairs with free := rest } idx (k, v)) } k
      (s.ComputeBucket hash k) fuel HEAD_SLAB_PTR = some (NULL_ITERATOR, false) := by
    rw [searchLoop_frame s _ k (s.ComputeBucket hash k) fuel HEAD_SLAB_PTR
      (fun p hp => hgetEq p)
      (fun p hp i hi hE => hextW _ (hslotne p hp i hi))]
    exact habs2
  have hnotin : ∀ j ∈ s.pairs.free, ¬ SlotIn { s with
      pairs := (MemoryAllocContext.write { s.pairs with free := rest } idx (k, v)) }
      (s.ComputeBucket hash k) fuel HEAD_SLAB_PTR j := by
    intro j hj hin
    obtain ⟨p, hp, i, hi, heq⟩ := hin
    rw [hchainW] at hp
    rw [hgetEq p] at heq
    refine hfreeunref j hj ?_
    exact SlotIn_imp_SlotInAll s (s.ComputeBucket hash k) fuel HEAD_SLAB_PTR j hsz
      (fun q hq => (hcondF q hq).1) ⟨p, hp, i, hi, heq⟩
  have hAlloc : s.pairs.Allocate = some (idx, { s.pairs with free := rest }) := by
    rw [MemoryAllocContext.Allocate, hfree]
  refine ⟨?_, ?_, hnotin, hkvW⟩
  · rw [SlabHashContext.Insert, hAlloc]
  · refine insertRT_master _ (s.ComputeBucket hash k) k v idx hkvW hidxE fuel
      HEAD_SLAB_PTR hsearchW ?_ ?_ ?_ ?_
    · rw [hchainW]
      exact hnodupF
    · intro p hp
      rw [hchainW] at hp
      refine ⟨(validPtr_congr _ s rfl rfl (s.ComputeBucket hash k) p).mpr
        (hcondF p hp).1, ?_⟩
      rw [hgetEq p]
      exact (hcondF p hp).2
    · exact hnotin idx hidxmem
    · show s.slabs.length + fuel < HEAD_SLAB_PTR
      exact hcap

/-- C1 (amended to keys absent from the bucket's chain): after a missed
search, `Insert(k,v)` publishes the pre-allocated record and returns `true`;
a second `Insert(k,v2)` then takes the duplicate branch — it returns
`(NULL_ITERATOR, false)`, frees its own pre-allocation, and leaves every head
and heap slab unchanged — and a search still returns the first record with
its original value `v`.  The unamended claim, quantified over every key
already present in the chain, is refuted by
`c1_insert_not_overwrite_counterexample`: a remove can leave an empty slot in
front of a deeper copy of the key, and the per-slab duplicate check then
misses it. -/
theorem c1_insert_not_overwrite_amended
    (s : SlabHashContext) (hash : Nat → Nat) (k v v2 idx idx2 fuel : Nat)
    (rest : List Nat)
    (hwf : WF s)
    (hfree : s.pairs.free = idx :: idx2 :: rest)
    (habs : s.Search hash k fuel = some (NULL_ITERATOR, false))
    (hcap : s.slabs.length + fuel < HEAD_SLAB_PTR) :
    ∃ s1 s2 : SlabHashContext,
      s.Insert hash k v (fuel + 3) = some (s1, idx, true)
      ∧ s1.Insert hash k v2 (fuel + 3) = some (s2, NULL_ITERATOR, false)
      ∧ s2.heads = s1.heads
      ∧ s2.slabs = s1.slabs
      ∧ s2.pairs.free = idx2 :: rest
      ∧ s2.Search hash k (fuel + 3) = some (idx, true)
      ∧ s2.pairs.extract idx = (k, v) := by
  have hne : idx ≠ idx2 := by
    obtain ⟨_, _, _, _, hnodupfr, _, _, _⟩ := hwf
    rw [hfree] at hnodupfr
    intro hc
    exact (List.nodup_cons.mp hnodupfr).1 (hc ▸ List.mem_cons_self _ _)
  obtain ⟨hInsEq, hRT, hnotin, hkvW⟩ :=
    insert_bundle_of_miss s hash k v idx fuel (idx2 :: rest) hwf hfree habs hcap
  obtain ⟨s1, hA1, hA2p, hA2n, hA3, hA4, hA8, hA5, hA6⟩ := hRT
  have hfree1 : s1.pairs.free = idx2 :: rest := by
    rw [hA2p]
    rfl
  have hAlloc2 : s1.pairs.Allocate = some (idx2, { s1.pairs with free := rest }) := by
    rw [MemoryAllocContext.Allocate, hfree1]
  have hb1 : s1.ComputeBucket hash k = s.ComputeBucket hash k := by
    show hash k % s1.num_buckets = hash k % s.num_buckets
    rw [hA2n]
  have hni2 : ¬ SlotIn { s with pairs := (MemoryAllocContext.write
      { s.pairs with free := idx2 :: rest } idx (k, v)) } (s.ComputeBucket hash k)
      fuel HEAD_SLAB_PTR idx2 := by
    refine hnotin idx2 ?_
    rw [hfree]
    exact List.mem_cons_of_mem _ (List.mem_cons_self _ _)
  have hA5app := hA5 v2 idx2 rest (fun hc => hne hc.symm) hni2
  refine ⟨s1, { s1 with pairs := ⟨s1.pairs.data.set idx2 (k, v2), idx2 :: rest⟩ },
    ?_, ?_, rfl, rfl, rfl, ?_, ?_⟩
  · rw [hInsEq]
    exact hA1
  · rw [SlabHashContext.Insert, hAlloc2, hb1]
    exact hA5app
  · -- the search still finds the first record
    have hb2 : (SlabHashContext.ComputeBucket
        { s1 with pairs := ⟨s1.pairs.data.set idx2 (k, v2), idx2 :: rest⟩ } hash k)
        = s.ComputeBucket hash k := by
      show hash k % s1.num_buckets = hash k % s.num_buckets
      rw [hA2n]
    rw [SlabHashContext.Search, hb2]
    have hfr := searchLoop_frame s1
      { s1 with pairs := ⟨s1.pairs.data.set idx2 (k, v2), idx2 :: rest⟩ } k
      (s.ComputeBucket hash k) (fuel + 3) HEAD_SLAB_PTR
      (fun p hp => getSlab_pairsUpdate s1 _ (s.ComputeBucket hash k) p)
      (fun p hp i hi hE => by
        have hSlot1 : SlotIn s1 (s.ComputeBucket hash k) (fuel + 3) HEAD_SLAB_PTR
            ((s1.getSlab (s.ComputeBucket hash k) p).slot i) :=
          ⟨p, hp, i, List.mem_range.mpr hi, rfl⟩
        have hne2 : (s1.getSlab (s.ComputeBucket hash k) p).slot i ≠ idx2 := by
          rcases hA4 _ hE hSlot1 with hinW | heqidx
          · exact fun hc => hni2 (hc ▸ hinW)
          · rw [heqidx]
            exact hne
        show (s1.pairs.data.set idx2 (k, v2)).getD
            ((s1.getSlab (s.ComputeBucket hash k) p).slot i) (0, 0)
          = s1.pairs.extract ((s1.getSlab (s.ComputeBucket hash k) p).slot i)
        rw [listGetD_set_ne _ _ _ _ _ (fun hc => hne2 hc.symm)]
        rfl)
    rw [hfr]
    exact hA3
  · -- the original value is retained
    show (s1.pairs.data.set idx2 (k, v2)).getD idx (0, 0) = (k, v)
    rw [listGetD_set_ne _ _ _ _ _ (fun hc => hne hc.symm)]
    show s1.pairs.extract idx = (k, v)
    rw [hA2p]
    exact hkvW

/-- C6 (amended to keys absent from the bucket's chain before the insert):
after a missed search, `Insert(k,v)`; `Remove(k)` returns `true` and returns
the record to the free list, and a subsequent `Search(k)` misses; moreover
`Remove` of the absent key leaves the table exactly unchanged and returns
`false`.  The unamended round trip, quantified over every reachable state,
is refuted by `c6_insert_remove_search_counterexample`: if the chain already
holds a deeper copy of `k` behind an empty slot, Insert publishes a second
copy, Remove deletes only the first one it finds, and the search still
succeeds. -/
theorem c6_insert_remove_search_amended
    (s : SlabHashContext) (hash : Nat → Nat) (k v idx fuel : Nat)
    (rest : List Nat)
    (hwf : WF s)
    (hfree : s.pairs.free = idx :: rest)
    (habs : s.Search hash k fuel = some (NULL_ITERATOR, false))
    (hcap : s.slabs.length + fuel < HEAD_SLAB_PTR) :
    (∃ s1 s2 : SlabHashContext,
      s.Insert hash k v (fuel + 3) = some (s1, idx, true)
      ∧ s1.Remove hash k (fuel + 3) = some (s2, true)
      ∧ s2.pairs.free = idx :: rest
      ∧ s2.Search hash k (fuel + 3) = some (NULL_ITERATOR, false))
    ∧ s.Remove hash k fuel = some (s, false) := by
  obtain ⟨hInsEq, hRT, hnotin, hkvW⟩ :=
    insert_bundle_of_miss s hash k v idx fuel rest hwf hfree habs hcap
  obtain ⟨s1, hA1, hA2p, hA2n, hA3, hA4, hA8, hA5, hA6⟩ := hRT
  obtain ⟨s2, hR1, hR2, hR3, hR4, hR5, hR6⟩ := hA6
  have hb1 : s1.ComputeBucket hash k = s.ComputeBucket hash k := by
    show hash k % s1.num_buckets = hash k % s.num_buckets
    rw [hA2n]
  have hb2 : s2.ComputeBucket hash k = s.ComputeBucket hash k := by
    show hash k % s2.num_buckets = hash k % s.num_buckets
    rw [hR4, hA2n]
  have habs2 := habs
  rw [SlabHashContext.Search] at habs2
  refine ⟨⟨s1, s2, ?_, ?_, ?_, ?_⟩, ?_⟩
  · rw [hInsEq]
    exact hA1
  · rw [SlabHashContext.Remove, hb1]
    exact hR1
  · rw [hR3, hA2p]
    rfl
  · rw [SlabHashContext.Search, hb2]
    exact hR6
  · rw [SlabHashContext.Remove]
    exact removeLoop_not_found s k (s.ComputeBucket hash k) fuel HEAD_SLAB_PTR habs2

/-- Witness for the amended C1 at a concrete table: a fresh key inserted
twice. -/
theorem c1_insert_not_overwrite_amended_witness :
    ∃ s1 s2 : SlabHashContext,
      exampleTable.Insert (fun x => x) 5 7 4 = some (s1, 0, true)
      ∧ s1.Insert (fun x => x) 5 8 4 = some (s2, NULL_ITERATOR, false)
      ∧ s2.heads = s1.heads
      ∧ s2.slabs = s1.slabs
      ∧ s2.pairs.free = 1 :: []
      ∧ s2.Search (fun x => x) 5 4 = some (0, true)
      ∧ s2.pairs.extract 0 = (5, 7) :=
  c1_insert_not_overwrite_amended exampleTable (fun x => x) 5 7 8 0 1 1 []
    (by decide) (by decide) (by decide) (by decide)

/-- Witness for the amended C6 at a concrete table: insert, remove, search. -/
theorem c6_insert_remove_search_amended_witness :
    (∃ s1 s2 : SlabHashContext,
      exampleTable.Insert (fun x => x) 5 7 4 = some (s1, 0, true)
      ∧ s1.Remove (fun x => x) 5 4 = some (s2, true)
      ∧ s2.pairs.free = 0 :: [1]
      ∧ s2.Search (fun x => x) 5 4 = some (NULL_ITERATOR, false))
    ∧ exampleTable.Remove (fun x => x) 5 1 = some (exampleTable, false) :=
  c6_insert_remove_search_amended exampleTable (fun x => x) 5 7 0 1 [1]
    (by decide) (by decide) (by decide) (by decide)

/-! ## Counterexamples to the unamended C1 and C6 -/

/-- Run `Insert` with the identity hash and keep the resulting state. -/
def cxInsert (s : SlabHashContext) (k v : Nat) : SlabHashContext :=
  match s.Insert (fun x => x) k v 40 with
  | some (s', _, _) => s'
  | none => s

/-- Run `Remove` with the identity hash and keep the resulting state. -/
def cxRemove (s : SlabHashContext) (k : Nat) : SlabHashContext :=
  match s.Remove (fun x => x) k 40 with
  | some (s', _) => s'
  | none => s

/-- One bucket and forty pair records: the table the counterexamples run in. -/
def cxBase : SlabHashContext :=
  ⟨1, [emptySlab], [], ⟨List.replicate 40 (0, 0), List.range 40⟩⟩

/-- Fill the head slab with keys 1..31, spill key 100 into a fresh linked
slab, then remove key 1: the head now has an empty slot in front of the deep
copy of key 100. -/
def cxPre : SlabHashContext :=
  cxRemove (cxInsert ((List.range 31).foldl
    (fun s i => cxInsert s (i + 1) (i + 1)) cxBase) 100 100) 1

set_option maxRecDepth 100000

/-- Counterexample to the unamended C1: key 100 is present in the bucket's
chain, yet `Insert(100, 77)` returns `true` (not the duplicate branch) and
modifies a head slot, because the per-slab duplicate check misses the copy
behind the hole left by a remove. -/
theorem c1_insert_not_overwrite_counterexample :
    cxPre.Search (fun x => x) 100 40 = some (31, true)
    ∧ cxPre.Insert (fun x => x) 100 77 40 = some (cxInsert cxPre 100 77, 0, true)
    ∧ (cxInsert cxPre 100 77).heads ≠ cxPre.heads :=
  ⟨by decide, by decide, by decide⟩

/-- Counterexample to the unamended C6: from the reachable state `cxPre`,
`Insert(100,77); Remove(100); Search(100)` still finds key 100 (the remove
deleted only the shallow copy), refuting the insert–remove–search round
trip. -/
theorem c6_insert_remove_search_counterexample :
    cxPre.Insert (fun x => x) 100 77 40 = some (cxInsert cxPre 100 77, 0, true)
    ∧ (cxInsert cxPre 100 77).Remove (fun x => x) 100 40
        = some (cxRemove (cxInsert cxPre 100 77) 100, true)
    ∧ (cxRemove (cxInsert cxPre 100 77) 100).Search (fun x => x) 100 40
        = some (31, true) :=
  ⟨by decide, by decide, by decide⟩
